import Mathlib

/-!
Shallow embedding of the VBDecompiler decompilation pipeline
(PE parsing, P-Code disassembly, P-Code → IR lifting, control-flow
structuring, type recovery, VB6 emission helpers), translated from the
C++ sources under src/.  Machine integers are modeled as `Nat`/`Int`
with explicit `% 2^w` reductions where the C++ performs fixed-width
arithmetic.  C++ functions that report failure (null pointers, `false`
returns, thrown exceptions) are modeled with `Option`/`Except`.
-/

namespace VBDec

/-- Modulus of 32-bit unsigned arithmetic (uint32_t). -/
def U32 : Nat := 4294967296

/-- Modulus of size_t arithmetic (64-bit). -/
def U64 : Nat := 18446744073709551616

/-- Reinterpret a Nat below 2^16 as a signed 16-bit value (int16_t). -/
def toInt16 (n : Nat) : Int := if n < 32768 then (n : Int) else (n : Int) - 65536

/-- Reinterpret a Nat below 2^32 as a signed 32-bit value (int32_t). -/
def toInt32 (n : Nat) : Int := if n < 2147483648 then (n : Int) else (n : Int) - U32

/-- Reduce an Int to a uint32 value (C-style conversion to unsigned). -/
def toU32 (i : Int) : Nat := (i % (U32 : Int)).toNat

/-- C++ std::string::find(pat) != npos, i.e. substring containment. -/
def strContains (s pat : String) : Bool := decide (pat.toList <:+: s.toList)

/-! ## PE sections (src/core/pe/PESection.h, PEFile.cpp) -/

/-- A parsed PE section: the header fields used by RVA resolution plus the
raw-data snapshot taken by `PEFile::parseSections`. -/
structure PESec where
  va : Nat        -- SectionHeader.VirtualAddress (uint32)
  vsize : Nat     -- SectionHeader.VirtualSize (uint32)
  rawPtr : Nat    -- SectionHeader.PointerToRawData (uint32)
  data : List Nat -- raw-data snapshot bytes
deriving DecidableEq, Repr

/-- PESection::containsRVA: `rva >= va && rva < va + vsize` where the
addition is performed in uint32 arithmetic (it can wrap). -/
def PESec.containsRVA (s : PESec) (rva : Nat) : Bool :=
  decide (s.va ≤ rva) && decide (rva < (s.va + s.vsize) % U32)

/-- PESection::rvaToOffset: offset of the RVA within the section data,
or -1 when the RVA is not inside this section. -/
def PESec.rvaToOffset (s : PESec) (rva : Nat) : Int :=
  if s.containsRVA rva then (rva : Int) - (s.va : Int) else -1

/-- PEFile::getSectionByRVA: the first section (in header order) whose
virtual range contains the RVA. -/
def getSectionByRVA (sections : List PESec) (rva : Nat) : Option PESec :=
  sections.find? (fun s => s.containsRVA rva)

/-- PEFile::getRVAData: the containing section together with the
in-section offset. -/
def getRVAData (sections : List PESec) (rva : Nat) : Option (PESec × Nat) :=
  match getSectionByRVA sections rva with
  | none => none
  | some s =>
    let off := s.rvaToOffset rva
    if off < 0 then none else some (s, off.toNat)

/-- PEFile::rvaToFileOffset: `section.getRawDataPointer() + offset`,
computed in uint32 arithmetic. -/
def rvaToFileOffset (sections : List PESec) (rva : Nat) : Option Nat :=
  match getRVAData sections rva with
  | none => none
  | some (s, off) => some ((s.rawPtr + off) % U32)

/-- PEFile::readAtRVA.  When the requested range runs past the end of the
section data the size is clamped with `size = sectionData.size() - offset`,
a size_t subtraction (which wraps when `offset` exceeds the data size);
the byte extraction is modeled as drop/take on the snapshot list. -/
def readAtRVA (sections : List PESec) (rva : Nat) (size : Nat) : List Nat :=
  match getRVAData sections rva with
  | none => []
  | some (s, off) =>
    let sz := if off + size > s.data.length then (U64 + s.data.length - off) % U64 else size
    (s.data.drop off).take sz

/-! ## IR type system (src/core/ir/IRType.h, IRType.cpp) -/

/-- VBTypeKind from IRType.h. -/
inductive VBTypeKind where
  | VOID | BYTE | BOOLEAN | INTEGER | LONG | SINGLE | DOUBLE | CURRENCY | DATE
  | STRING | OBJECT | VARIANT | USER_DEFINED | ARRAY | UNKNOWN
deriving DecidableEq, Repr, Fintype

/-- IRType values as constructed by the program: `IRType(kind)` (basic,
non-array), `IRType::makeUserDefined(name)`, and
`IRType::makeArray(element, dimensions)`. -/
inductive IRType where
  | basic : VBTypeKind → IRType
  | userDefined : String → IRType
  | array : IRType → Int → IRType
deriving DecidableEq, Repr

/-- IRType::getKind(). -/
def IRType.kind : IRType → VBTypeKind
  | .basic k => k
  | .userDefined _ => .USER_DEFINED
  | .array _ _ => .ARRAY

/-- IRType::operator==: compares kinds and the isArray flag, then element
type and dimensions for arrays, the name for user-defined types, and
nothing else for the remaining kinds. -/
def IRType.beq : IRType → IRType → Bool
  | .basic k1, .basic k2 => k1 == k2
  | .basic k1, .userDefined n2 => k1 == VBTypeKind.USER_DEFINED && "" == n2
  | .userDefined n1, .basic k2 => VBTypeKind.USER_DEFINED == k2 && n1 == ""
  | .userDefined n1, .userDefined n2 => n1 == n2
  | .array e1 d1, .array e2 d2 => d1 == d2 && IRType.beq e1 e2
  | _, _ => false

/-- IRType::isNumeric(). -/
def IRType.isNumeric (t : IRType) : Bool :=
  t.kind == .BYTE || t.kind == .INTEGER || t.kind == .LONG ||
  t.kind == .SINGLE || t.kind == .DOUBLE || t.kind == .CURRENCY

/-! ## Type recovery (src/core/decompiler/TypeRecovery.cpp) -/

/-- TypeRecovery::unifyTypes, translated clause by clause from the source:
Variant checks first, then equality, then numeric promotion
(Double > Single > Currency > Long > Integer > Byte), then String,
then Variant. -/
def unifyTypes (type1 type2 : IRType) : IRType :=
  if type1.kind == .VARIANT then type2
  else if type2.kind == .VARIANT then type1
  else if type1.beq type2 then type1
  else if type1.isNumeric && type2.isNumeric then
    (if type1.kind == .DOUBLE || type2.kind == .DOUBLE then .basic .DOUBLE
     else if type1.kind == .SINGLE || type2.kind == .SINGLE then .basic .SINGLE
     else if type1.kind == .CURRENCY || type2.kind == .CURRENCY then .basic .CURRENCY
     else if type1.kind == .LONG || type2.kind == .LONG then .basic .LONG
     else if type1.kind == .INTEGER || type2.kind == .INTEGER then .basic .INTEGER
     else .basic .BYTE)
  else if type1.kind == .STRING || type2.kind == .STRING then .basic .STRING
  else .basic .VARIANT

/-- IRExpressionKind from IRExpression.h.  The kind of a unary/binary
expression node is its operator. -/
inductive IRExpressionKind where
  | CONSTANT | VARIABLE | TEMPORARY
  | NEGATE | NOT
  | ADD | SUBTRACT | MULTIPLY | DIVIDE | INT_DIVIDE | MODULO
  | EQUAL | NOT_EQUAL | LESS_THAN | LESS_EQUAL | GREATER_THAN | GREATER_EQUAL
  | AND | OR | XOR | CONCATENATE
  | LOAD | MEMBER_ACCESS | ARRAY_INDEX | CALL | CAST
deriving DecidableEq, Repr, Fintype

/-- TypeRecovery::inferBinaryOpType. -/
def inferBinaryOpType (op : IRExpressionKind) (leftType rightType : IRType) : IRType :=
  match op with
  | .ADD | .SUBTRACT | .MULTIPLY | .DIVIDE => unifyTypes leftType rightType
  | .INT_DIVIDE | .MODULO => .basic .LONG
  | .CONCATENATE => .basic .STRING
  | .EQUAL | .NOT_EQUAL | .LESS_THAN | .LESS_EQUAL | .GREATER_THAN | .GREATER_EQUAL =>
      .basic .BOOLEAN
  | .AND | .OR | .XOR => .basic .BOOLEAN
  | _ => .basic .VARIANT

/-! Specification-side definitions for the unification claim, written from
the spec's words ("if the two types are equal the result is that type; if
either is Variant the result is the other; if both are numeric the result
is the widest per the order Double > Single > Currency > Long > Integer >
Byte; if either is String the result is String; otherwise Variant"). -/

/-- Rank of a numeric kind in the spec's widening order. -/
def specNumericRank : VBTypeKind → Nat
  | .DOUBLE => 6
  | .SINGLE => 5
  | .CURRENCY => 4
  | .LONG => 3
  | .INTEGER => 2
  | .BYTE => 1
  | _ => 0

/-- The widest of two numeric types per the spec's order. -/
def specWidest (t1 t2 : IRType) : IRType :=
  if specNumericRank t2.kind ≤ specNumericRank t1.kind then .basic t1.kind else .basic t2.kind

/-- The unification function exactly as the spec's sentence orders the
cases. -/
def specUnify (t1 t2 : IRType) : IRType :=
  if t1.beq t2 then t1
  else if t1.kind == .VARIANT then t2
  else if t2.kind == .VARIANT then t1
  else if t1.isNumeric && t2.isNumeric then specWidest t1 t2
  else if t1.kind == .STRING || t2.kind == .STRING then .basic .STRING
  else .basic .VARIANT

/-! ## Emitter precedence (src/core/decompiler/VBCodeGenerator.cpp) -/

/-- VBCodeGenerator::getOperatorPrecedence. -/
def getOperatorPrecedence (op : IRExpressionKind) : Nat :=
  match op with
  | .NEGATE | .NOT => 10
  | .MULTIPLY | .DIVIDE | .INT_DIVIDE => 9
  | .MODULO => 8
  | .ADD | .SUBTRACT => 7
  | .CONCATENATE => 6
  | .EQUAL | .NOT_EQUAL | .LESS_THAN | .LESS_EQUAL | .GREATER_THAN | .GREATER_EQUAL => 5
  | .AND => 4
  | .OR => 3
  | .XOR => 2
  | _ => 0

/-- VBCodeGenerator::needsParentheses.  The C++ function receives the child
expression pointer and reads only its kind (a null child yields false), so
it is embedded over the child's kind.  `generateBinaryOp` wraps the left
child iff `needsParentheses op left true` and the right child iff
`needsParentheses op right false`. -/
def needsParentheses (parentOp childOp : IRExpressionKind) (isLeftChild : Bool) : Bool :=
  if childOp == .CONSTANT || childOp == .VARIABLE || childOp == .TEMPORARY then false
  else if getOperatorPrecedence childOp < getOperatorPrecedence parentOp then true
  else if getOperatorPrecedence childOp == getOperatorPrecedence parentOp && !isLeftChild then true
  else false

/-- Precedence table exactly as listed in the claim
(Negate/Not=10; *,/,\=9; Mod=8; +,-=7; &=6; comparisons=5; And=4; Or=3;
Xor=2); kinds the claim does not list have no claimed precedence. -/
def claimPrec : IRExpressionKind → Option Nat
  | .NEGATE | .NOT => some 10
  | .MULTIPLY | .DIVIDE | .INT_DIVIDE => some 9
  | .MODULO => some 8
  | .ADD | .SUBTRACT => some 7
  | .CONCATENATE => some 6
  | .EQUAL | .NOT_EQUAL | .LESS_THAN | .LESS_EQUAL | .GREATER_THAN | .GREATER_EQUAL => some 5
  | .AND => some 4
  | .OR => some 3
  | .XOR => some 2
  | _ => none

/-! ## IR model (src/core/ir/IRExpression.h, IRStatement.h, IRFunction.h)

Only the parts of the IR the lifter and structurer construct or inspect
are embedded.  Expression constructors never produced by the lifter
(MemberAccess, ArrayIndex, Cast, Load) and statement kinds never produced
by it (Store, Label, Nop) are omitted; no claim depends on them.
IEEE floating-point payloads are carried opaquely as their 32-bit
patterns, since no claim interprets them. -/

/-- IRConstant's value variant (int64_t / double / string / bool). -/
inductive IRConstVal where
  | intVal : Int → IRConstVal
  | floatBits : Nat → IRConstVal
  | strVal : String → IRConstVal
  | boolVal : Bool → IRConstVal
deriving DecidableEq, Repr

/-- IRVariable: (id, name, type); the id field is a uint32. -/
structure IRVariable where
  id : Nat
  name : String
  type : IRType
deriving DecidableEq, Repr

/-- IRExpression: the kind of a unary/binary node is its operator, per
IRExpression::makeUnary/makeBinary.  (`var` stands for the VARIABLE
kind; `variable` is a Lean keyword.) -/
inductive IRExpr where
  | constant : IRConstVal → IRType → IRExpr
  | var : IRVariable → IRExpr
  | unary : IRExpressionKind → IRExpr → IRType → IRExpr
  | binary : IRExpressionKind → IRExpr → IRExpr → IRType → IRExpr
  | call : String → List IRExpr → IRType → IRExpr

/-- IRStatement kinds produced by the lifter: Assign, Call, Return,
Branch (condition, target block id), Goto (target block id). -/
inductive IRStmt where
  | assign : IRVariable → IRExpr → IRStmt
  | callStmt : String → List IRExpr → IRStmt
  | ret : Option IRExpr → IRStmt
  | branch : IRExpr → Nat → IRStmt
  | goto : Nat → IRStmt

/-- IRStatement::getKind() == BRANCH. -/
def IRStmt.isBranchKind : IRStmt → Bool
  | .branch _ _ => true
  | _ => false

/-- IRStatement::getCondition() (null unless a Branch). -/
def IRStmt.condExpr : IRStmt → Option IRExpr
  | .branch c _ => some c
  | _ => none

/-- IRStatement::getTargetBlockId() (meaningful for Branch/Goto). -/
def IRStmt.targetId : IRStmt → Nat
  | .branch _ t => t
  | .goto t => t
  | _ => 0

/-- IRBasicBlock: id, statements, predecessor and successor id sets.
The unordered_set fields are modeled as duplicate-free lists in insertion
order. -/
structure IRBasicBlock where
  id : Nat
  stmts : List IRStmt
  preds : List Nat
  succs : List Nat

/-- std::unordered_set insert: add the element if not already present. -/
def insertSet (x : Nat) (l : List Nat) : List Nat :=
  if l.contains x then l else l ++ [x]

/-- IRFunction: name, return type, address, blocks keyed by id, the
running id counter, and the entry block id. -/
structure IRFunc where
  name : String
  returnType : IRType
  address : Nat
  blocks : List IRBasicBlock
  nextBlockId : Nat
  entryBlockId : Nat

/-- IRFunction::getBasicBlock(id). -/
def IRFunc.getBlock (fn : IRFunc) (id : Nat) : Option IRBasicBlock :=
  fn.blocks.find? (fun b => b.id == id)

/-- IRFunction::createBasicBlock: allocate the next id and an empty block;
returns the new block's id with the updated function. -/
def IRFunc.createBasicBlock (fn : IRFunc) : Nat × IRFunc :=
  (fn.nextBlockId,
   { fn with blocks := fn.blocks ++ [⟨fn.nextBlockId, [], [], []⟩],
             nextBlockId := fn.nextBlockId + 1 })

/-- Apply an update to the block with the given id (pointer mutation in
the C++ becomes an in-place map over the block list). -/
def updateBlock (blocks : List IRBasicBlock) (id : Nat)
    (f : IRBasicBlock → IRBasicBlock) : List IRBasicBlock :=
  blocks.map (fun b => if b.id == id then f b else b)

/-- IRFunction::connectBlocks: when both blocks exist, add the edge to the
successor set of `fromId` and the predecessor set of `toId`. -/
def IRFunc.connectBlocks (fn : IRFunc) (fromId toId : Nat) : IRFunc :=
  if (fn.getBlock fromId).isSome && (fn.getBlock toId).isSome then
    let bs1 := updateBlock fn.blocks fromId (fun b => { b with succs := insertSet toId b.succs })
    let bs2 := updateBlock bs1 toId (fun b => { b with preds := insertSet fromId b.preds })
    { fn with blocks := bs2 }
  else fn

/-- IRBasicBlock::addStatement on the block with the given id. -/
def IRFunc.addStmt (fn : IRFunc) (blockId : Nat) (s : IRStmt) : IRFunc :=
  { fn with blocks := updateBlock fn.blocks blockId (fun b => { b with stmts := b.stmts ++ [s] }) }

/-! ## P-Code instruction model (src/core/disasm/pcode/PCodeInstruction.h) -/

/-- PCodeOpcodeCategory. -/
inductive PCodeOpcodeCategory where
  | CONTROL_FLOW | STACK | VARIABLE | CALL | STRING | ARRAY | LOOP
  | MEMORY | ARITHMETIC | LOGICAL | COMPARISON | CONVERSION | UNKNOWN
deriving DecidableEq, Repr

/-- PCodeOperandType. -/
inductive PCodeOperandType where
  | NONE | BYTE | INT16 | INT32 | FLOAT | STRING
  | LOCAL_VAR | ARGUMENT | CONTROL | BRANCH_OFFSET | ADDRESS | VTABLE
deriving DecidableEq, Repr

/-- PCodeType (data-type specifier attached to operands). -/
inductive PCodeType where
  | UNKNOWN | BYTE | BOOLEAN | INTEGER | LONG | SINGLE | VARIANT | STRING | OBJECT
deriving DecidableEq, Repr

/-- PCodeOperandValue (std::variant); the float alternative carries its
32-bit pattern. -/
inductive POperandValue where
  | noVal : POperandValue
  | byte : Nat → POperandValue
  | i16 : Int → POperandValue
  | i32 : Int → POperandValue
  | f32 : Nat → POperandValue
  | str : String → POperandValue
deriving DecidableEq, Repr

/-- PCodeOperand. -/
structure POperand where
  type : PCodeOperandType
  value : POperandValue
  dataType : PCodeType
deriving DecidableEq, Repr

/-- PCodeOperand::getByte (throws unless the payload is a byte; the throw
is modeled as `none`). -/
def POperand.getByte : POperand → Option Nat
  | ⟨_, .byte b, _⟩ => some b
  | _ => none

/-- PCodeOperand::getInt16. -/
def POperand.getInt16 : POperand → Option Int
  | ⟨_, .i16 v, _⟩ => some v
  | _ => none

/-- PCodeOperand::getInt32. -/
def POperand.getInt32 : POperand → Option Int
  | ⟨_, .i32 v, _⟩ => some v
  | _ => none

/-- PCodeOperand::getFloat (the value is its bit pattern). -/
def POperand.getFloatBits : POperand → Option Nat
  | ⟨_, .f32 v, _⟩ => some v
  | _ => none

/-- PCodeOperand::getString. -/
def POperand.getString : POperand → Option String
  | ⟨_, .str s, _⟩ => some s
  | _ => none

/-- PCodeInstruction. -/
structure PInstr where
  address : Nat := 0       -- uint32
  length : Nat := 0        -- uint8
  opcode : Nat := 0        -- uint8
  extOpcode : Nat := 0     -- uint8
  mnemonic : String := ""
  operands : List POperand := []
  bytes : List Nat := []
  category : PCodeOpcodeCategory := .UNKNOWN
  stackDelta : Int := 0
  isBranch : Bool := false
  isConditionalBranch : Bool := false
  isCall : Bool := false
  isReturn : Bool := false
  branchOffset : Int := 0  -- int32
deriving DecidableEq, Repr

/-! ## P-Code lifter (src/core/ir/PCodeLifter.cpp)

The evaluation stack is modeled with the top at the head of the list
(the C++ pushes/pops at the back of a vector).  A sub-lifter returning
`none` corresponds to the C++ returning false (or throwing from an
operand getter); `lift` turns that into its error result. -/

/-- PCodeLifter::pcodeTypeToIRType. -/
def pcodeTypeToIRType : PCodeType → IRType
  | .BYTE => .basic .BYTE
  | .BOOLEAN => .basic .BOOLEAN
  | .INTEGER => .basic .INTEGER
  | .LONG => .basic .LONG
  | .SINGLE => .basic .SINGLE
  | .STRING => .basic .STRING
  | .OBJECT => .basic .OBJECT
  | .VARIANT => .basic .VARIANT
  | .UNKNOWN => .basic .VARIANT

/-- PCodeLifter::LiftContext: the function under construction, the current
block (by id), the evaluation stack, and the address→block map. -/
structure LiftCtx where
  fn : IRFunc
  currentBlock : Nat
  evalStack : List IRExpr
  addrMap : List (Nat × Nat)

/-- Look an address up in the address→block map. -/
def lookupAddr (m : List (Nat × Nat)) (a : Nat) : Option Nat :=
  (m.find? (fun p => p.1 == a)).map (·.2)

/-- PCodeLifter::getOrCreateBlockForAddress. -/
def getOrCreateBlockForAddress (addr : Nat) (ctx : LiftCtx) : Nat × LiftCtx :=
  match lookupAddr ctx.addrMap addr with
  | some bid => (bid, ctx)
  | none =>
    let r := ctx.fn.createBasicBlock
    (r.1, { ctx with fn := r.2, addrMap := ctx.addrMap ++ [(addr, r.1)] })

/-- Branch target address: `instr.getAddress() + instr.getLength() +
instr.getBranchOffset()` in uint32 arithmetic. -/
def branchTarget (i : PInstr) : Nat :=
  toU32 ((i.address : Int) + (i.length : Int) + i.branchOffset)

/-- PCodeLifter::liftArithmetic. -/
def liftArithmetic (i : PInstr) (ctx : LiftCtx) : Option LiftCtx :=
  let m := i.mnemonic
  let op? : Option IRExpressionKind :=
    if strContains m "Add" then some .ADD
    else if strContains m "Sub" then some .SUBTRACT
    else if strContains m "Mul" then some .MULTIPLY
    else if strContains m "Div" then some .DIVIDE
    else if strContains m "Idiv" then some .INT_DIVIDE
    else if strContains m "Mod" then some .MODULO
    else if strContains m "Concat" then some .CONCATENATE
    else none
  match op? with
  | none => some ctx
  | some op =>
    match ctx.evalStack with
    | right :: left :: rest =>
        some { ctx with evalStack := .binary op left right (.basic .VARIANT) :: rest }
    | _ => none

/-- PCodeLifter::liftComparison. -/
def liftComparison (i : PInstr) (ctx : LiftCtx) : Option LiftCtx :=
  let m := i.mnemonic
  let op? : Option IRExpressionKind :=
    if strContains m "Eq" then some .EQUAL
    else if strContains m "Ne" then some .NOT_EQUAL
    else if strContains m "Lt" then some .LESS_THAN
    else if strContains m "Le" then some .LESS_EQUAL
    else if strContains m "Gt" then some .GREATER_THAN
    else if strContains m "Ge" then some .GREATER_EQUAL
    else none
  match op? with
  | none => some ctx
  | some op =>
    match ctx.evalStack with
    | right :: left :: rest =>
        some { ctx with evalStack := .binary op left right (.basic .BOOLEAN) :: rest }
    | _ => none

/-- PCodeLifter::liftLogical. -/
def liftLogical (i : PInstr) (ctx : LiftCtx) : Option LiftCtx :=
  let m := i.mnemonic
  if strContains m "Not" then
    match ctx.evalStack with
    | operand :: rest =>
        some { ctx with evalStack := .unary .NOT operand (.basic .BOOLEAN) :: rest }
    | [] => none
  else
    let op? : Option IRExpressionKind :=
      if strContains m "And" then some .AND
      else if strContains m "Or" then some .OR
      else if strContains m "Xor" then some .XOR
      else none
    match op? with
    | none => some ctx
    | some op =>
      match ctx.evalStack with
      | right :: left :: rest =>
          some { ctx with evalStack := .binary op left right (.basic .BOOLEAN) :: rest }
      | _ => none

/-- PCodeLifter::liftStack: literal pushes, local loads, local stores.
The IRVariable id field is the int16 index converted to uint32. -/
def liftStack (i : PInstr) (ctx : LiftCtx) : Option LiftCtx :=
  let m := i.mnemonic
  if strContains m "Lit" then
    match i.operands with
    | [] => none
    | operand :: _ =>
      match operand.type, operand.value with
      | .BYTE, .byte b =>
          some { ctx with evalStack := .constant (.intVal b) (.basic .LONG) :: ctx.evalStack }
      | .INT16, .i16 v =>
          some { ctx with evalStack := .constant (.intVal v) (.basic .LONG) :: ctx.evalStack }
      | .INT32, .i32 v =>
          some { ctx with evalStack := .constant (.intVal v) (.basic .LONG) :: ctx.evalStack }
      | .FLOAT, .f32 bits =>
          some { ctx with evalStack := .constant (.floatBits bits) (.basic .DOUBLE) :: ctx.evalStack }
      | .STRING, .str s =>
          some { ctx with evalStack := .constant (.strVal s) (.basic .STRING) :: ctx.evalStack }
      | _, _ => none
  else if strContains m "LdLoc" || strContains m "LoadLocal" then
    match i.operands with
    | [] => none
    | operand :: _ =>
      match operand.getInt16 with
      | none => none
      | some idx =>
        let v : IRVariable := ⟨toU32 idx, "local" ++ toString idx, pcodeTypeToIRType operand.dataType⟩
        some { ctx with evalStack := .var v :: ctx.evalStack }
  else if strContains m "StLoc" || strContains m "StoreLocal" then
    match i.operands with
    | [] => none
    | operand :: _ =>
      match ctx.evalStack with
      | [] => none
      | value :: rest =>
        match operand.getInt16 with
        | none => none
        | some idx =>
          let v : IRVariable := ⟨toU32 idx, "local" ++ toString idx, pcodeTypeToIRType operand.dataType⟩
          some { ctx with fn := ctx.fn.addStmt ctx.currentBlock (.assign v value),
                          evalStack := rest }
  else
    some ctx

/-- PCodeLifter::liftMemory (memory operations are skipped). -/
def liftMemory (_i : PInstr) (ctx : LiftCtx) : Option LiftCtx :=
  some ctx

/-- PCodeLifter::liftBranch. -/
def liftBranch (i : PInstr) (ctx : LiftCtx) : Option LiftCtx :=
  let targetAddr := branchTarget i
  if i.isConditionalBranch then
    match ctx.evalStack with
    | [] => none
    | condition :: rest =>
      let r := getOrCreateBlockForAddress targetAddr { ctx with evalStack := rest }
      let tid := r.1
      let ctx1 := r.2
      let fn1 := ctx1.fn.addStmt ctx1.currentBlock (.branch condition tid)
      let fn2 := fn1.connectBlocks ctx1.currentBlock tid
      let rc := fn2.createBasicBlock
      let fn4 := rc.2.connectBlocks ctx1.currentBlock rc.1
      some { ctx1 with fn := fn4, currentBlock := rc.1 }
  else
    let r := getOrCreateBlockForAddress targetAddr ctx
    let tid := r.1
    let ctx1 := r.2
    let fn1 := ctx1.fn.addStmt ctx1.currentBlock (.goto tid)
    let fn2 := fn1.connectBlocks ctx1.currentBlock tid
    let rc := fn2.createBasicBlock
    some { ctx1 with fn := rc.2, currentBlock := rc.1 }

/-- PCodeLifter::liftCall: resolve the display name from the first operand
(Address → "func_" + std::to_string of the int32 value, i.e. decimal;
String → the string; otherwise "func_unknown"), then either push a Call
expression (mnemonic contains CallFunc or CallI4) or append a Call
statement. -/
def liftCall (i : PInstr) (ctx : LiftCtx) : Option LiftCtx :=
  let funcName? : Option String :=
    match i.operands with
    | [] => some "func_unknown"
    | op :: _ =>
      if op.type == .ADDRESS then (op.getInt32).map (fun v => "func_" ++ toString v)
      else if op.type == .STRING then op.getString
      else some "func_unknown"
  match funcName? with
  | none => none
  | some funcName =>
    if strContains i.mnemonic "CallFunc" || strContains i.mnemonic "CallI4" then
      some { ctx with evalStack := .call funcName [] (.basic .VARIANT) :: ctx.evalStack }
    else
      some { ctx with fn := ctx.fn.addStmt ctx.currentBlock (.callStmt funcName []) }

/-- PCodeLifter::liftReturn: ExitProc appends a value-less Return;
otherwise the popped top of stack (when any) becomes the return value. -/
def liftReturn (i : PInstr) (ctx : LiftCtx) : Option LiftCtx :=
  if strContains i.mnemonic "ExitProc" then
    some { ctx with fn := ctx.fn.addStmt ctx.currentBlock (.ret none) }
  else
    match ctx.evalStack with
    | [] => some { ctx with fn := ctx.fn.addStmt ctx.currentBlock (.ret none) }
    | v :: rest =>
        some { ctx with fn := ctx.fn.addStmt ctx.currentBlock (.ret (some v)),
                        evalStack := rest }

/-- PCodeLifter::liftInstruction: dispatch on the opcode category. -/
def liftInstruction (i : PInstr) (ctx : LiftCtx) : Option LiftCtx :=
  match i.category with
  | .ARITHMETIC => liftArithmetic i ctx
  | .COMPARISON => liftComparison i ctx
  | .LOGICAL => liftLogical i ctx
  | .STACK => liftStack i ctx
  | .VARIABLE => liftStack i ctx
  | .MEMORY => liftMemory i ctx
  | .ARRAY => liftMemory i ctx
  | .CONTROL_FLOW =>
    if i.isBranch then liftBranch i ctx
    else if i.isReturn || strContains i.mnemonic "Exit" || strContains i.mnemonic "Return" then
      liftReturn i ctx
    else some ctx
  | .CALL => liftCall i ctx
  | _ => some ctx

/-- True when the current block exists and is non-empty (the guard for
wiring a fall-through edge when entering a pre-created block). -/
def blockNonEmpty (fn : IRFunc) (id : Nat) : Bool :=
  match fn.getBlock id with
  | some b => !b.stmts.isEmpty
  | none => false

/-- Second pass of PCodeLifter::lift: walk instructions in order,
switching to pre-created blocks at their addresses, lifting each
instruction, and stopping after an instruction marked isReturn. -/
def liftGo : List PInstr → LiftCtx → Except String IRFunc
  | [], ctx => .ok ctx.fn
  | i :: rest, ctx =>
    let ctx1 :=
      match lookupAddr ctx.addrMap i.address with
      | some bid =>
        if bid ≠ ctx.currentBlock then
          let fn' := if blockNonEmpty ctx.fn ctx.currentBlock then
                       ctx.fn.connectBlocks ctx.currentBlock bid
                     else ctx.fn
          { ctx with fn := fn', currentBlock := bid }
        else ctx
      | none => ctx
    match liftInstruction i ctx1 with
    | none => .error ("Failed to lift instruction: " ++ i.mnemonic)
    | some ctx2 => if i.isReturn then .ok ctx2.fn else liftGo rest ctx2

/-- PCodeLifter::lift: reject an empty instruction sequence, create the
entry block, pre-create blocks for branch targets (pass 1), then lift
(pass 2).  resolveBranches is a no-op in the source. -/
def lift (instructions : List PInstr) (functionName : String) (startAddress : Nat) :
    Except String IRFunc :=
  if instructions.isEmpty then .error "No instructions to lift"
  else
    let fn0 : IRFunc :=
      { name := functionName, returnType := .basic .VARIANT, address := startAddress,
        blocks := [], nextBlockId := 0, entryBlockId := 0 }
    let re := fn0.createBasicBlock
    let fn2 := { re.2 with entryBlockId := re.1 }
    let ctx0 : LiftCtx := ⟨fn2, re.1, [], []⟩
    let ctx1 := instructions.foldl
      (fun ctx i =>
        if i.isBranch && i.branchOffset ≠ 0 then
          (getOrCreateBlockForAddress (branchTarget i) ctx).2
        else ctx)
      ctx0
    liftGo instructions ctx1

/-! ## P-Code disassembler (src/core/disasm/pcode/PCodeDisassembler.cpp)

The opcode metadata tables (`getOpcodeInfo`, `getExtendedOpcodeInfo`) are
declared in PCodeOpcode.h but their definitions are not part of the
sources under src/; the functions below therefore take the two tables as
parameters (a table entry of `none` is the C++ null return). -/

/-- PCodeOpcodeInfo from PCodeOpcode.h. -/
structure POpcodeInfo where
  opcode : Nat
  extOpcode : Nat
  mnemonic : String
  format : String
  category : PCodeOpcodeCategory
  stackDelta : Int
  isExtended : Bool := false
  isBranch : Bool := false
  isConditionalBranch : Bool := false
  isCall : Bool := false
  isReturn : Bool := false
deriving Repr

/-- isExtendedOpcode: 0xFB..0xFF. -/
def isExtendedOpcode (opcode : Nat) : Bool :=
  decide (251 ≤ opcode) && decide (opcode ≤ 255)

/-- parseTypeChar (PCodeInstruction.cpp). -/
def parseTypeChar (typeChar : Char) : PCodeType :=
  if typeChar = 'b' then .BYTE
  else if typeChar = '?' then .BOOLEAN
  else if typeChar = '%' then .INTEGER
  else if typeChar = '&' then .LONG
  else if typeChar = '!' then .SINGLE
  else if typeChar = '~' then .VARIANT
  else if typeChar = 'z' then .STRING
  else if typeChar = 'o' then .OBJECT
  else .UNKNOWN

/-- PCodeDisassembler::readByte: fails at end of data, else returns the
byte and the advanced offset. -/
def preadByte (data : List Nat) (offset : Nat) : Option (Nat × Nat) :=
  if offset < data.length then some (data.getD offset 0, offset + 1) else none

/-- PCodeDisassembler::readInt16 (little-endian, signed). -/
def preadInt16 (data : List Nat) (offset : Nat) : Option (Int × Nat) :=
  if offset + 1 ≥ data.length then none
  else some (toInt16 (data.getD offset 0 + data.getD (offset + 1) 0 * 256), offset + 2)

/-- PCodeDisassembler::readInt32 (little-endian, signed). -/
def preadInt32 (data : List Nat) (offset : Nat) : Option (Int × Nat) :=
  if offset + 3 ≥ data.length then none
  else some (toInt32 (data.getD offset 0 + data.getD (offset + 1) 0 * 256 +
                      data.getD (offset + 2) 0 * 65536 + data.getD (offset + 3) 0 * 16777216),
             offset + 4)

/-- PCodeDisassembler::readFloat: same bytes as readInt32, kept as the
32-bit pattern. -/
def preadFloat (data : List Nat) (offset : Nat) : Option (Nat × Nat) :=
  if offset + 3 ≥ data.length then none
  else some (data.getD offset 0 + data.getD (offset + 1) 0 * 256 +
             data.getD (offset + 2) 0 * 65536 + data.getD (offset + 3) 0 * 16777216,
             offset + 4)

/-- Loop of PCodeDisassembler::readString: consume UTF-16LE units until a
NUL or until fewer than two bytes remain; units below 128 become the
corresponding character, others a question mark.  The fuel argument
bounds the iteration count (each step consumes two bytes, so any fuel of
at least data.length suffices). -/
def preadStringLoop (data : List Nat) : Nat → Nat → String → String × Nat
  | 0, offset, acc => (acc, offset)
  | fuel + 1, offset, acc =>
    if offset + 1 < data.length then
      let wchar := data.getD offset 0 + data.getD (offset + 1) 0 * 256
      if wchar = 0 then (acc, offset + 2)
      else if wchar < 128 then
        preadStringLoop data fuel (offset + 2) (acc.push (Char.ofNat wchar))
      else preadStringLoop data fuel (offset + 2) (acc.push '?')
    else (acc, offset)

/-- PCodeDisassembler::readString (always succeeds in the source). -/
def preadString (data : List Nat) (offset : Nat) : String × Nat :=
  preadStringLoop data (data.length + 1) offset ""

/-- Operand-with-optional-type-character decoding shared by the 'a' and
'l' format characters: an int16 index, then a trailing type character if
the next byte is one of % & ! ~ z ?. -/
def preadIndexTyped (data : List Nat) (offset : Nat) : Option (Int × PCodeType × Nat) :=
  match preadInt16 data offset with
  | none => none
  | some (index, off1) =>
    if off1 < data.length then
      let typeChar := Char.ofNat (data.getD off1 0)
      if typeChar = '%' || typeChar = '&' || typeChar = '!' ||
         typeChar = '~' || typeChar = 'z' || typeChar = '?' then
        some (index, parseTypeChar typeChar, off1 + 1)
      else some (index, .VARIANT, off1)
    else some (index, .VARIANT, off1)

/-- PCodeDisassembler::decodeOperands: walk the format string and decode
one operand per format character ('?' and '~' are type annotations and
unknown characters are ignored). -/
def decodeOperands (data : List Nat) : List Char → Nat → List POperand →
    Option (List POperand × Nat)
  | [], offset, acc => some (acc, offset)
  | ch :: rest, offset, acc =>
    if ch = 'b' then
      match preadByte data offset with
      | none => none
      | some (v, off') => decodeOperands data rest off' (acc ++ [⟨.BYTE, .byte v, .BYTE⟩])
    else if ch = '%' then
      match preadInt16 data offset with
      | none => none
      | some (v, off') => decodeOperands data rest off' (acc ++ [⟨.INT16, .i16 v, .INTEGER⟩])
    else if ch = '&' then
      match preadInt32 data offset with
      | none => none
      | some (v, off') => decodeOperands data rest off' (acc ++ [⟨.INT32, .i32 v, .LONG⟩])
    else if ch = '!' then
      match preadFloat data offset with
      | none => none
      | some (v, off') => decodeOperands data rest off' (acc ++ [⟨.FLOAT, .f32 v, .SINGLE⟩])
    else if ch = 'a' then
      match preadIndexTyped data offset with
      | none => none
      | some (v, dt, off') => decodeOperands data rest off' (acc ++ [⟨.ARGUMENT, .i16 v, dt⟩])
    else if ch = 'c' then
      match preadInt16 data offset with
      | none => none
      | some (v, off') => decodeOperands data rest off' (acc ++ [⟨.CONTROL, .i16 v, .OBJECT⟩])
    else if ch = 'l' then
      match preadIndexTyped data offset with
      | none => none
      | some (v, dt, off') => decodeOperands data rest off' (acc ++ [⟨.LOCAL_VAR, .i16 v, dt⟩])
    else if ch = 'z' then
      let (s, off') := preadString data offset
      decodeOperands data rest off' (acc ++ [⟨.STRING, .str s, .STRING⟩])
    else if ch = 'v' then
      match preadInt16 data offset with
      | none => none
      | some (v, off') => decodeOperands data rest off' (acc ++ [⟨.VTABLE, .i16 v, .OBJECT⟩])
    else
      decodeOperands data rest offset acc

/-- PCodeDisassembler::decodeInstruction, parameterized by the two opcode
tables.  An unknown extended opcode yields an Unknown-category record; an
unknown standard opcode is a failure ("Invalid opcode"). -/
def decodeInstruction (primTable : Nat → Option POpcodeInfo)
    (extTable : Nat → Nat → Option POpcodeInfo)
    (data : List Nat) (offset : Nat) (instr : PInstr) : Option (PInstr × Nat) :=
  match preadByte data offset with
  | none => none
  | some (opcode, off1) =>
    if isExtendedOpcode opcode then
      match preadByte data off1 with
      | none => none
      | some (extOpcode, off2) =>
        match extTable opcode extOpcode with
        | none =>
          some ({ instr with opcode := opcode, extOpcode := extOpcode,
                             mnemonic := "Unknown", category := .UNKNOWN }, off2)
        | some info =>
          let instr1 := { instr with opcode := info.opcode, extOpcode := info.extOpcode,
                                     mnemonic := info.mnemonic, category := info.category,
                                     stackDelta := info.stackDelta }
          match decodeOperands data info.format.toList off2 [] with
          | none => none
          | some (ops, off') => some ({ instr1 with operands := ops }, off')
    else
      match primTable opcode with
      | none => none
      | some info =>
        let instr1 := { instr with opcode := info.opcode, extOpcode := 0,
                                   mnemonic := info.mnemonic, category := info.category,
                                   stackDelta := info.stackDelta }
        match decodeOperands data info.format.toList off1 [] with
        | none => none
        | some (ops, off') => some ({ instr1 with operands := ops }, off')

namespace PCodeDisassembler

/-- PCodeDisassembler::disassembleOne: returns the decoded instruction
(with its length and raw bytes filled in) and the advanced offset, or
`none` on failure. -/
def disassembleOne (primTable : Nat → Option POpcodeInfo)
    (extTable : Nat → Nat → Option POpcodeInfo)
    (data : List Nat) (offset : Nat) (address : Nat) : Option (PInstr × Nat) :=
  if offset ≥ data.length then none
  else
    let instr0 : PInstr := { address := address }
    match decodeInstruction primTable extTable data offset instr0 with
    | none => none
    | some (instr, off') =>
      some ({ instr with length := (off' - offset) % 256,
                         bytes := (data.drop offset).take (off' - offset) }, off')

/-- PCodeDisassembler::disassemble with count = 0 (no limit); the fuel
argument bounds the loop (the C++ loop is bounded by the buffer because
each successful step advances the offset, except when a decoded length
wraps to zero — the model makes the bound explicit). -/
def disassemble (primTable : Nat → Option POpcodeInfo)
    (extTable : Nat → Nat → Option POpcodeInfo) (data : List Nat) :
    Nat → Nat → Nat → List PInstr
  | 0, _, _ => []
  | fuel + 1, offset, address =>
    if offset < data.length then
      match disassembleOne primTable extTable data offset address with
      | none => []
      | some (i, off') => i :: disassemble primTable extTable data fuel off' (address + i.length)
    else []

end PCodeDisassembler

/-! ## x86 disassembler (src/core/disasm/x86/X86Disassembler.cpp) -/

/-- X86Register (X86Instruction.h). -/
inductive X86Register where
  | NONE
  | AL | CL | DL | BL | AH | CH | DH | BH
  | AX | CX | DX | BX | SP | BP | SI | DI
  | EAX | ECX | EDX | EBX | ESP | EBP | ESI | EDI
deriving DecidableEq, Repr

/-- X86OperandType. -/
inductive X86OperandType where
  | NONE | REGISTER | IMMEDIATE | MEMORY | OFFSET
deriving DecidableEq, Repr

/-- The X86Opcode values produced by the decoder (the C++ enum has more
members; only those the decoder can emit, plus UNKNOWN, are needed). -/
inductive X86Opcode where
  | MOV | PUSH | POP | LEA
  | ADD | SUB | INC | DEC
  | AND | OR | XOR | TEST | CMP
  | CALL | JMP
  | JO | JNO | JB | JAE | JE | JNE | JBE | JA
  | JS | JNS | JP | JNP | JL | JGE | JLE | JG
  | RET | RETN | RETF | LEAVE | NOP
  | UNKNOWN
deriving DecidableEq, Repr

/-- X86Operand with the default field values from X86Instruction.h. -/
structure X86Operand where
  type : X86OperandType := .NONE
  reg : X86Register := .NONE
  immediate : Nat := 0        -- uint32
  base : X86Register := .NONE
  index : X86Register := .NONE
  scale : Nat := 0            -- uint8
  displacement : Int := 0     -- int32
  offset : Int := 0           -- int32
  size : Nat := 0             -- uint8
deriving DecidableEq, Repr

/-- X86Instruction: address, opcode, length, raw bytes, operands. -/
structure X86Instr where
  address : Nat := 0
  opcode : X86Opcode := .UNKNOWN
  length : Nat := 0
  bytes : List Nat := []
  operands : List X86Operand := []
deriving DecidableEq, Repr

/-- X86Instruction::addOperand. -/
def X86Instr.addOp (i : X86Instr) (o : X86Operand) : X86Instr :=
  { i with operands := i.operands ++ [o] }

/-- Reinterpret a Nat below 2^8 as a signed 8-bit value (int8_t). -/
def toInt8 (n : Nat) : Int := if n < 128 then (n : Int) else (n : Int) - 256

/-- X86Disassembler::readByte. -/
def xreadByte (data : List Nat) (offset : Nat) : Option (Nat × Nat) :=
  if offset ≥ data.length then none else some (data.getD offset 0, offset + 1)

/-- X86Disassembler::readWord (little-endian). -/
def xreadWord (data : List Nat) (offset : Nat) : Option (Nat × Nat) :=
  if offset + 2 > data.length then none
  else some (data.getD offset 0 + data.getD (offset + 1) 0 * 256, offset + 2)

/-- X86Disassembler::readDword (little-endian). -/
def xreadDword (data : List Nat) (offset : Nat) : Option (Nat × Nat) :=
  if offset + 4 > data.length then none
  else some (data.getD offset 0 + data.getD (offset + 1) 0 * 256 +
             data.getD (offset + 2) 0 * 65536 + data.getD (offset + 3) 0 * 16777216,
             offset + 4)

/-- X86Disassembler::readSByte. -/
def xreadSByte (data : List Nat) (offset : Nat) : Option (Int × Nat) :=
  match xreadByte data offset with
  | none => none
  | some (v, off') => some (toInt8 v, off')

/-- X86Disassembler::readSDword. -/
def xreadSDword (data : List Nat) (offset : Nat) : Option (Int × Nat) :=
  match xreadDword data offset with
  | none => none
  | some (v, off') => some (toInt32 v, off')

/-- X86Disassembler::getReg32. -/
def getReg32 (regNum : Nat) : X86Register :=
  match regNum with
  | 0 => .EAX | 1 => .ECX | 2 => .EDX | 3 => .EBX
  | 4 => .ESP | 5 => .EBP | 6 => .ESI | 7 => .EDI
  | _ => .NONE

/-- X86Disassembler::getReg16. -/
def getReg16 (regNum : Nat) : X86Register :=
  match regNum with
  | 0 => .AX | 1 => .CX | 2 => .DX | 3 => .BX
  | 4 => .SP | 5 => .BP | 6 => .SI | 7 => .DI
  | _ => .NONE

/-- X86Disassembler::getReg8. -/
def getReg8 (regNum : Nat) : X86Register :=
  match regNum with
  | 0 => .AL | 1 => .CL | 2 => .DL | 3 => .BL
  | 4 => .AH | 5 => .CH | 6 => .DH | 7 => .BH
  | _ => .NONE

/-- X86Disassembler::decodeModRM: (mod, reg, rm) fields of the next byte. -/
def decodeModRM (data : List Nat) (offset : Nat) : Option ((Nat × Nat × Nat) × Nat) :=
  match xreadByte data offset with
  | none => none
  | some (modrm, off') => some ((modrm / 64 % 4, modrm / 8 % 8, modrm % 8), off')

/-- X86Disassembler::decodeSIB: (scale, index, base) fields of the next
byte. -/
def decodeSIB (data : List Nat) (offset : Nat) : Option ((Nat × Nat × Nat) × Nat) :=
  match xreadByte data offset with
  | none => none
  | some (sib, off') => some ((sib / 64 % 4, sib / 8 % 8, sib % 8), off')

/-- X86Disassembler::decodeMemoryOperand. -/
def decodeMemoryOperand (data : List Nat) (offset : Nat) (md rm operandSize : Nat) :
    Option (X86Operand × Nat) :=
  let operand : X86Operand := { type := .MEMORY, size := operandSize }
  if md = 3 then none
  else
    let hasSIB := rm = 4
    if md = 0 then
      if rm = 5 then
        match xreadDword data offset with
        | none => none
        | some (disp, off') => some ({ operand with displacement := toInt32 disp }, off')
      else if hasSIB then
        match decodeSIB data offset with
        | none => none
        | some ((scale, index, base), off1) =>
          match (if base = 5 then
                   match xreadDword data off1 with
                   | none => none
                   | some (disp, off2) =>
                       some ({ operand with displacement := toInt32 disp }, off2)
                 else some ({ operand with base := getReg32 base }, off1) :
                 Option (X86Operand × Nat)) with
          | none => none
          | some (op1, off2) =>
            if index ≠ 4 then
              some ({ op1 with index := getReg32 index, scale := 2 ^ scale }, off2)
            else some (op1, off2)
      else
        some ({ operand with base := getReg32 rm }, offset)
    else if md = 1 then
      match xreadSByte data offset with
      | none => none
      | some (disp, off1) =>
        let op0 := { operand with displacement := disp }
        if hasSIB then
          match decodeSIB data off1 with
          | none => none
          | some ((scale, index, base), off2) =>
            let op1 := { op0 with base := getReg32 base }
            if index ≠ 4 then
              some ({ op1 with index := getReg32 index, scale := 2 ^ scale }, off2)
            else some (op1, off2)
        else some ({ op0 with base := getReg32 rm }, off1)
    else if md = 2 then
      match xreadSDword data offset with
      | none => none
      | some (disp, off1) =>
        let op0 := { operand with displacement := disp }
        if hasSIB then
          match decodeSIB data off1 with
          | none => none
          | some ((scale, index, base), off2) =>
            let op1 := { op0 with base := getReg32 base }
            if index ≠ 4 then
              some ({ op1 with index := getReg32 index, scale := 2 ^ scale }, off2)
            else some (op1, off2)
        else some ({ op0 with base := getReg32 rm }, off1)
    else some (operand, offset)

/-- X86Disassembler::decodeMov. -/
def decodeMov (data : List Nat) (offset : Nat) (instr : X86Instr) (opcode : Nat) :
    Option (X86Instr × Nat) :=
  let instr := { instr with opcode := X86Opcode.MOV }
  if opcode = 0x88 then
    match decodeModRM data offset with
    | none => none
    | some ((md, reg, rm), off1) =>
      let src : X86Operand := { type := .REGISTER, reg := getReg8 reg, size := 1 }
      if md = 3 then
        let dst : X86Operand := { type := .REGISTER, reg := getReg8 rm, size := 1 }
        some ((instr.addOp dst).addOp src, off1)
      else
        match decodeMemoryOperand data off1 md rm 1 with
        | none => none
        | some (dst, off2) => some ((instr.addOp dst).addOp src, off2)
  else if opcode = 0x89 then
    match decodeModRM data offset with
    | none => none
    | some ((md, reg, rm), off1) =>
      let src : X86Operand := { type := .REGISTER, reg := getReg32 reg, size := 4 }
      if md = 3 then
        let dst : X86Operand := { type := .REGISTER, reg := getReg32 rm, size := 4 }
        some ((instr.addOp dst).addOp src, off1)
      else
        match decodeMemoryOperand data off1 md rm 4 with
        | none => none
        | some (dst, off2) => some ((instr.addOp dst).addOp src, off2)
  else if opcode = 0x8A then
    match decodeModRM data offset with
    | none => none
    | some ((md, reg, rm), off1) =>
      let dst : X86Operand := { type := .REGISTER, reg := getReg8 reg, size := 1 }
      if md = 3 then
        let src : X86Operand := { type := .REGISTER, reg := getReg8 rm, size := 1 }
        some ((instr.addOp dst).addOp src, off1)
      else
        match decodeMemoryOperand data off1 md rm 1 with
        | none => none
        | some (src, off2) => some ((instr.addOp dst).addOp src, off2)
  else if opcode = 0x8B then
    match decodeModRM data offset with
    | none => none
    | some ((md, reg, rm), off1) =>
      let dst : X86Operand := { type := .REGISTER, reg := getReg32 reg, size := 4 }
      if md = 3 then
        let src : X86Operand := { type := .REGISTER, reg := getReg32 rm, size := 4 }
        some ((instr.addOp dst).addOp src, off1)
      else
        match decodeMemoryOperand data off1 md rm 4 with
        | none => none
        | some (src, off2) => some ((instr.addOp dst).addOp src, off2)
  else if 0xB0 ≤ opcode ∧ opcode ≤ 0xBF then
    if opcode ≤ 0xB7 then
      match xreadByte data offset with
      | none => none
      | some (imm, off1) =>
        let dst : X86Operand := { type := .REGISTER, reg := getReg8 (opcode % 8), size := 1 }
        let src : X86Operand := { type := .IMMEDIATE, immediate := imm, size := 1 }
        some ((instr.addOp dst).addOp src, off1)
    else
      match xreadDword data offset with
      | none => none
      | some (imm, off1) =>
        let dst : X86Operand := { type := .REGISTER, reg := getReg32 (opcode % 8), size := 4 }
        let src : X86Operand := { type := .IMMEDIATE, immediate := imm, size := 4 }
        some ((instr.addOp dst).addOp src, off1)
  else if opcode = 0xC6 ∨ opcode = 0xC7 then
    match decodeModRM data offset with
    | none => none
    | some ((md, reg, rm), off1) =>
      if reg ≠ 0 then none
      else if opcode = 0xC6 then
        match (if md = 3 then
                 some (({ type := .REGISTER, reg := getReg8 rm, size := 1 } : X86Operand), off1)
               else decodeMemoryOperand data off1 md rm 1) with
        | none => none
        | some (dst, off2) =>
          match xreadByte data off2 with
          | none => none
          | some (imm, off3) =>
            let src : X86Operand := { type := .IMMEDIATE, immediate := imm, size := 1 }
            some ((instr.addOp dst).addOp src, off3)
      else
        match (if md = 3 then
                 some (({ type := .REGISTER, reg := getReg32 rm, size := 4 } : X86Operand), off1)
               else decodeMemoryOperand data off1 md rm 4) with
        | none => none
        | some (dst, off2) =>
          match xreadDword data off2 with
          | none => none
          | some (imm, off3) =>
            let src : X86Operand := { type := .IMMEDIATE, immediate := imm, size := 4 }
            some ((instr.addOp dst).addOp src, off3)
  else
    some (instr, offset)

/-- X86Disassembler::decodePush (note: an opcode outside the three PUSH
forms still appends the default-constructed operand, as the source
does). -/
def decodePush (data : List Nat) (offset : Nat) (instr : X86Instr) (opcode : Nat) :
    Option (X86Instr × Nat) :=
  let instr := { instr with opcode := X86Opcode.PUSH }
  if 0x50 ≤ opcode ∧ opcode ≤ 0x57 then
    let operand : X86Operand := { type := .REGISTER, reg := getReg32 (opcode % 8), size := 4 }
    some (instr.addOp operand, offset)
  else if opcode = 0x68 then
    match xreadDword data offset with
    | none => none
    | some (imm, off1) =>
      some (instr.addOp { type := .IMMEDIATE, immediate := imm, size := 4 }, off1)
  else if opcode = 0x6A then
    match xreadSByte data offset with
    | none => none
    | some (imm, off1) =>
      some (instr.addOp { type := .IMMEDIATE, immediate := toU32 imm, size := 1 }, off1)
  else
    some (instr.addOp {}, offset)

/-- X86Disassembler::decodePop. -/
def decodePop (_data : List Nat) (offset : Nat) (instr : X86Instr) (opcode : Nat) :
    Option (X86Instr × Nat) :=
  let instr := { instr with opcode := X86Opcode.POP }
  some (instr.addOp { type := .REGISTER, reg := getReg32 (opcode % 8), size := 4 }, offset)

/-- X86Disassembler::decodeCall: only 0xE8 takes an operand; any other
opcode routed here (0xFF) yields a bare CALL. -/
def decodeCall (data : List Nat) (offset : Nat) (instr : X86Instr) (opcode : Nat) :
    Option (X86Instr × Nat) :=
  let instr := { instr with opcode := X86Opcode.CALL }
  if opcode = 0xE8 then
    match xreadSDword data offset with
    | none => none
    | some (rel, off1) =>
      some (instr.addOp { type := .OFFSET, offset := rel, size := 4 }, off1)
  else some (instr, offset)

/-- X86Disassembler::decodeJmp. -/
def decodeJmp (data : List Nat) (offset : Nat) (instr : X86Instr) (opcode : Nat) :
    Option (X86Instr × Nat) :=
  let instr := { instr with opcode := X86Opcode.JMP }
  if opcode = 0xE9 then
    match xreadSDword data offset with
    | none => none
    | some (rel, off1) =>
      some (instr.addOp { type := .OFFSET, offset := rel, size := 4 }, off1)
  else if opcode = 0xEB then
    match xreadSByte data offset with
    | none => none
    | some (rel, off1) =>
      some (instr.addOp { type := .OFFSET, offset := rel, size := 1 }, off1)
  else some (instr, offset)

/-- Jcc opcode table for 0x70..0x7F, by low nibble. -/
def jccOpcode (n : Nat) : X86Opcode :=
  match n with
  | 0 => .JO | 1 => .JNO | 2 => .JB | 3 => .JAE
  | 4 => .JE | 5 => .JNE | 6 => .JBE | 7 => .JA
  | 8 => .JS | 9 => .JNS | 10 => .JP | 11 => .JNP
  | 12 => .JL | 13 => .JGE | 14 => .JLE | _ => .JG

/-- X86Disassembler::decodeJcc: short conditional jumps 0x70..0x7F; the
0x0F-prefixed near forms are unimplemented and fail. -/
def decodeJcc (data : List Nat) (offset : Nat) (instr : X86Instr) (opcode : Nat) :
    Option (X86Instr × Nat) :=
  if 0x70 ≤ opcode ∧ opcode ≤ 0x7F then
    let instr := { instr with opcode := jccOpcode (opcode % 16) }
    match xreadSByte data offset with
    | none => none
    | some (rel, off1) =>
      some (instr.addOp { type := .OFFSET, offset := rel, size := 1 }, off1)
  else none

/-- X86Disassembler::decodeRet. -/
def decodeRet (data : List Nat) (offset : Nat) (instr : X86Instr) (opcode : Nat) :
    Option (X86Instr × Nat) :=
  if opcode = 0xC3 then some ({ instr with opcode := X86Opcode.RET }, offset)
  else if opcode = 0xC2 then
    match xreadWord data offset with
    | none => none
    | some (popBytes, off1) =>
      some (({ instr with opcode := X86Opcode.RETN }).addOp
              { type := .IMMEDIATE, immediate := popBytes, size := 2 }, off1)
  else if opcode = 0xCB ∨ opcode = 0xCA then
    some ({ instr with opcode := X86Opcode.RETF }, offset)
  else some (instr, offset)

/-- X86Disassembler::decodeArithmetic (sets only the opcode; operand
decoding is not implemented in the source). -/
def decodeArithmetic (_data : List Nat) (offset : Nat) (instr : X86Instr) (opcode : Nat) :
    Option (X86Instr × Nat) :=
  if 0x00 ≤ opcode ∧ opcode ≤ 0x05 then some ({ instr with opcode := X86Opcode.ADD }, offset)
  else if 0x28 ≤ opcode ∧ opcode ≤ 0x2D then some ({ instr with opcode := X86Opcode.SUB }, offset)
  else if 0x38 ≤ opcode ∧ opcode ≤ 0x3D then some ({ instr with opcode := X86Opcode.CMP }, offset)
  else some (instr, offset)

/-- X86Disassembler::decodeLeave. -/
def decodeLeave (_data : List Nat) (offset : Nat) (instr : X86Instr) :
    Option (X86Instr × Nat) :=
  some ({ instr with opcode := X86Opcode.LEAVE }, offset)

/-- X86Disassembler::decodeNop. -/
def decodeNop (_data : List Nat) (offset : Nat) (instr : X86Instr) :
    Option (X86Instr × Nat) :=
  some ({ instr with opcode := X86Opcode.NOP }, offset)

/-- X86Disassembler::decodeLea. -/
def decodeLea (data : List Nat) (offset : Nat) (instr : X86Instr) (_opcode : Nat) :
    Option (X86Instr × Nat) :=
  let instr := { instr with opcode := X86Opcode.LEA }
  match decodeModRM data offset with
  | none => none
  | some ((md, reg, rm), off1) =>
    let dst : X86Operand := { type := .REGISTER, reg := getReg32 reg, size := 4 }
    let instr := instr.addOp dst
    match decodeMemoryOperand data off1 md rm 4 with
    | none => none
    | some (src, off2) => some (instr.addOp src, off2)

/-- X86Disassembler::decodeTest. -/
def decodeTest (data : List Nat) (offset : Nat) (instr : X86Instr) (opcode : Nat) :
    Option (X86Instr × Nat) :=
  let instr := { instr with opcode := X86Opcode.TEST }
  if opcode = 0x84 then
    match decodeModRM data offset with
    | none => none
    | some ((md, reg, rm), off1) =>
      match (if md = 3 then
               some (({ type := .REGISTER, reg := getReg8 rm, size := 1 } : X86Operand), off1)
             else decodeMemoryOperand data off1 md rm 1) with
      | none => none
      | some (dst, off2) =>
        let src : X86Operand := { type := .REGISTER, reg := getReg8 reg, size := 1 }
        some ((instr.addOp dst).addOp src, off2)
  else if opcode = 0x85 then
    match decodeModRM data offset with
    | none => none
    | some ((md, reg, rm), off1) =>
      match (if md = 3 then
               some (({ type := .REGISTER, reg := getReg32 rm, size := 4 } : X86Operand), off1)
             else decodeMemoryOperand data off1 md rm 4) with
      | none => none
      | some (dst, off2) =>
        let src : X86Operand := { type := .REGISTER, reg := getReg32 reg, size := 4 }
        some ((instr.addOp dst).addOp src, off2)
  else if opcode = 0xA8 then
    match xreadByte data offset with
    | none => none
    | some (imm, off1) =>
      let dst : X86Operand := { type := .REGISTER, reg := .AL, size := 1 }
      let src : X86Operand := { type := .IMMEDIATE, immediate := imm, size := 1 }
      some ((instr.addOp dst).addOp src, off1)
  else if opcode = 0xA9 then
    match xreadDword data offset with
    | none => none
    | some (imm, off1) =>
      let dst : X86Operand := { type := .REGISTER, reg := .EAX, size := 4 }
      let src : X86Operand := { type := .IMMEDIATE, immediate := imm, size := 4 }
      some ((instr.addOp dst).addOp src, off1)
  else some (instr, offset)

/-- Common r/m-with-register form shared (shape-wise) by the XOR/AND/OR
translations below; `lo` is the base opcode of the six-opcode family and
`w` selects 8- vs 32-bit width.  Each family in the C++ repeats this
shape literally. -/
def decodeAluFamily (data : List Nat) (offset : Nat) (instr : X86Instr) (opcode lo : Nat) :
    Option (X86Instr × Nat) :=
  if opcode = lo then
    match decodeModRM data offset with
    | none => none
    | some ((md, reg, rm), off1) =>
      match (if md = 3 then
               some (({ type := .REGISTER, reg := getReg8 rm, size := 1 } : X86Operand), off1)
             else decodeMemoryOperand data off1 md rm 1) with
      | none => none
      | some (dst, off2) =>
        let src : X86Operand := { type := .REGISTER, reg := getReg8 reg, size := 1 }
        some ((instr.addOp dst).addOp src, off2)
  else if opcode = lo + 1 then
    match decodeModRM data offset with
    | none => none
    | some ((md, reg, rm), off1) =>
      match (if md = 3 then
               some (({ type := .REGISTER, reg := getReg32 rm, size := 4 } : X86Operand), off1)
             else decodeMemoryOperand data off1 md rm 4) with
      | none => none
      | some (dst, off2) =>
        let src : X86Operand := { type := .REGISTER, reg := getReg32 reg, size := 4 }
        some ((instr.addOp dst).addOp src, off2)
  else if opcode = lo + 2 then
    match decodeModRM data offset with
    | none => none
    | some ((md, reg, rm), off1) =>
      let dst : X86Operand := { type := .REGISTER, reg := getReg8 reg, size := 1 }
      match (if md = 3 then
               some (({ type := .REGISTER, reg := getReg8 rm, size := 1 } : X86Operand), off1)
             else decodeMemoryOperand data off1 md rm 1) with
      | none => none
      | some (src, off2) => some ((instr.addOp dst).addOp src, off2)
  else if opcode = lo + 3 then
    match decodeModRM data offset with
    | none => none
    | some ((md, reg, rm), off1) =>
      let dst : X86Operand := { type := .REGISTER, reg := getReg32 reg, size := 4 }
      match (if md = 3 then
               some (({ type := .REGISTER, reg := getReg32 rm, size := 4 } : X86Operand), off1)
             else decodeMemoryOperand data off1 md rm 4) with
      | none => none
      | some (src, off2) => some ((instr.addOp dst).addOp src, off2)
  else if opcode = lo + 4 then
    match xreadByte data offset with
    | none => none
    | some (imm, off1) =>
      let dst : X86Operand := { type := .REGISTER, reg := .AL, size := 1 }
      let src : X86Operand := { type := .IMMEDIATE, immediate := imm, size := 1 }
      some ((instr.addOp dst).addOp src, off1)
  else if opcode = lo + 5 then
    match xreadDword data offset with
    | none => none
    | some (imm, off1) =>
      let dst : X86Operand := { type := .REGISTER, reg := .EAX, size := 4 }
      let src : X86Operand := { type := .IMMEDIATE, immediate := imm, size := 4 }
      some ((instr.addOp dst).addOp src, off1)
  else some (instr, offset)

/-- X86Disassembler::decodeXor (family base 0x30). -/
def decodeXor (data : List Nat) (offset : Nat) (instr : X86Instr) (opcode : Nat) :
    Option (X86Instr × Nat) :=
  decodeAluFamily data offset { instr with opcode := X86Opcode.XOR } opcode 0x30

/-- X86Disassembler::decodeAnd (family base 0x20). -/
def decodeAnd (data : List Nat) (offset : Nat) (instr : X86Instr) (opcode : Nat) :
    Option (X86Instr × Nat) :=
  decodeAluFamily data offset { instr with opcode := X86Opcode.AND } opcode 0x20

/-- X86Disassembler::decodeOr (family base 0x08). -/
def decodeOr (data : List Nat) (offset : Nat) (instr : X86Instr) (opcode : Nat) :
    Option (X86Instr × Nat) :=
  decodeAluFamily data offset { instr with opcode := X86Opcode.OR } opcode 0x08

/-- X86Disassembler::decodeIncDec. -/
def decodeIncDec (data : List Nat) (offset : Nat) (instr : X86Instr) (opcode : Nat) :
    Option (X86Instr × Nat) :=
  if 0x40 ≤ opcode ∧ opcode ≤ 0x47 then
    some (({ instr with opcode := X86Opcode.INC }).addOp
            { type := .REGISTER, reg := getReg32 (opcode - 0x40), size := 4 }, offset)
  else if 0x48 ≤ opcode ∧ opcode ≤ 0x4F then
    some (({ instr with opcode := X86Opcode.DEC }).addOp
            { type := .REGISTER, reg := getReg32 (opcode - 0x48), size := 4 }, offset)
  else if opcode = 0xFE then
    match decodeModRM data offset with
    | none => none
    | some ((md, reg, rm), off1) =>
      match (if reg = 0 then some ({ instr with opcode := X86Opcode.INC })
             else if reg = 1 then some ({ instr with opcode := X86Opcode.DEC })
             else none : Option X86Instr) with
      | none => none
      | some instr1 =>
        match (if md = 3 then
                 some (({ type := .REGISTER, reg := getReg8 rm, size := 1 } : X86Operand), off1)
               else decodeMemoryOperand data off1 md rm 1) with
        | none => none
        | some (op, off2) => some (instr1.addOp op, off2)
  else if opcode = 0xFF then
    match decodeModRM data offset with
    | none => none
    | some ((md, reg, rm), off1) =>
      match (if reg = 0 then some ({ instr with opcode := X86Opcode.INC })
             else if reg = 1 then some ({ instr with opcode := X86Opcode.DEC })
             else none : Option X86Instr) with
      | none => none
      | some instr1 =>
        match (if md = 3 then
                 some (({ type := .REGISTER, reg := getReg32 rm, size := 4 } : X86Operand), off1)
               else decodeMemoryOperand data off1 md rm 4) with
        | none => none
        | some (op, off2) => some (instr1.addOp op, off2)
  else some (instr, offset)

namespace X86Disassembler

/-- The primary-opcode dispatch from X86Disassembler::disassembleOne as a
predicate: true exactly when some decode branch is selected for the first
byte.  An uncovered byte leaves `decoded` false. -/
def covered (opcode : Nat) : Bool :=
  (decide (0x88 ≤ opcode) && decide (opcode ≤ 0x8B)) ||
  (decide (0xA0 ≤ opcode) && decide (opcode ≤ 0xA3)) ||
  (decide (0xB0 ≤ opcode) && decide (opcode ≤ 0xBF)) ||
  (decide (0xC6 ≤ opcode) && decide (opcode ≤ 0xC7)) ||
  (decide (0x50 ≤ opcode) && decide (opcode ≤ 0x57)) ||
  (opcode == 0x68) || (opcode == 0x6A) ||
  (decide (0x58 ≤ opcode) && decide (opcode ≤ 0x5F)) ||
  (opcode == 0xE8) || (opcode == 0xFF) ||
  (opcode == 0xE9) || (opcode == 0xEB) ||
  (decide (0x70 ≤ opcode) && decide (opcode ≤ 0x7F)) || (opcode == 0x0F) ||
  (opcode == 0xC3) || (opcode == 0xC2) || (opcode == 0xCB) || (opcode == 0xCA) ||
  (opcode == 0x8D) ||
  (opcode == 0x84) || (opcode == 0x85) || (opcode == 0xA8) || (opcode == 0xA9) ||
  (decide (0x30 ≤ opcode) && decide (opcode ≤ 0x35)) ||
  (decide (0x20 ≤ opcode) && decide (opcode ≤ 0x25)) ||
  (decide (0x08 ≤ opcode) && decide (opcode ≤ 0x0D)) ||
  (decide (0x40 ≤ opcode) && decide (opcode ≤ 0x4F)) ||
  (opcode == 0xC9) || (opcode == 0x90) ||
  (decide (0x00 ≤ opcode) && decide (opcode ≤ 0x05)) ||
  (decide (0x28 ≤ opcode) && decide (opcode ≤ 0x2D)) ||
  (decide (0x38 ≤ opcode) && decide (opcode ≤ 0x3D))

/-- X86Disassembler::disassembleOne: dispatch on the first byte; when no
branch matched (or the selected decoder failed) the result is an
UNKNOWN-opcode instruction of length 1 so callers can resynchronize. -/
def disassembleOne (data : List Nat) (address : Nat) : Option X86Instr :=
  match data with
  | [] => none
  | opcode :: _ =>
    let instr0 : X86Instr := { address := address }
    let offset := 1
    let res : Option (X86Instr × Nat) :=
      if (0x88 ≤ opcode ∧ opcode ≤ 0x8B) ∨ (0xA0 ≤ opcode ∧ opcode ≤ 0xA3) ∨
         (0xB0 ≤ opcode ∧ opcode ≤ 0xBF) ∨ (0xC6 ≤ opcode ∧ opcode ≤ 0xC7) then
        decodeMov data offset instr0 opcode
      else if 0x50 ≤ opcode ∧ opcode ≤ 0x57 then decodePush data offset instr0 opcode
      else if opcode = 0x68 ∨ opcode = 0x6A then decodePush data offset instr0 opcode
      else if 0x58 ≤ opcode ∧ opcode ≤ 0x5F then decodePop data offset instr0 opcode
      else if opcode = 0xE8 ∨ opcode = 0xFF then decodeCall data offset instr0 opcode
      else if opcode = 0xE9 ∨ opcode = 0xEB then decodeJmp data offset instr0 opcode
      else if (0x70 ≤ opcode ∧ opcode ≤ 0x7F) ∨ opcode = 0x0F then
        decodeJcc data offset instr0 opcode
      else if opcode = 0xC3 ∨ opcode = 0xC2 ∨ opcode = 0xCB ∨ opcode = 0xCA then
        decodeRet data offset instr0 opcode
      else if opcode = 0x8D then decodeLea data offset instr0 opcode
      else if opcode = 0x84 ∨ opcode = 0x85 ∨ opcode = 0xA8 ∨ opcode = 0xA9 then
        decodeTest data offset instr0 opcode
      else if 0x30 ≤ opcode ∧ opcode ≤ 0x35 then decodeXor data offset instr0 opcode
      else if 0x20 ≤ opcode ∧ opcode ≤ 0x25 then decodeAnd data offset instr0 opcode
      else if 0x08 ≤ opcode ∧ opcode ≤ 0x0D then decodeOr data offset instr0 opcode
      else if 0x40 ≤ opcode ∧ opcode ≤ 0x4F then decodeIncDec data offset instr0 opcode
      else if opcode = 0xC9 then decodeLeave data offset instr0
      else if opcode = 0x90 then decodeNop data offset instr0
      else if (0x00 ≤ opcode ∧ opcode ≤ 0x05) ∨ (0x28 ≤ opcode ∧ opcode ≤ 0x2D) ∨
              (0x38 ≤ opcode ∧ opcode ≤ 0x3D) then
        decodeArithmetic data offset instr0 opcode
      else none
    match res with
    | none =>
      some { address := address, opcode := .UNKNOWN, length := 1,
             bytes := [opcode], operands := [] }
    | some (instr, off') =>
      some { instr with length := off' % 256, bytes := data.take off' }

end X86Disassembler

/-! ## Control-flow structurer (src/core/decompiler/ControlFlowStructurer.cpp)

Block pointers stored in StructuredNode are modeled by block ids (block
ids are unique within a function).  The successor sets iterate in the
insertion order of the modeled lists.  The C++ recursion carries no
explicit bound; the embedding threads a fuel argument that strictly
decreases with every processed block and every region recursion, so any
sufficiently large fuel reproduces the C++ computation. -/

/-- StructuredNodeKind. -/
inductive StructuredNodeKind where
  | SEQUENCE | IF_THEN | IF_THEN_ELSE | WHILE | DO_WHILE | DO_UNTIL
  | FOR | SELECT | GOTO_LABEL
deriving DecidableEq, Repr

/-- StructuredNode: kind, optional condition, children, attached blocks
(by id, in addBlock order). -/
inductive SNode where
  | node : StructuredNodeKind → Option IRExpr → List SNode → List Nat → SNode

mutual

/-- Number of times the block id is attached (via addBlock) anywhere in
the structured tree. -/
def countBlockOcc (i : Nat) : SNode → Nat
  | .node _ _ children blockIds =>
    blockIds.count i + countBlockOccList i children

/-- Sum of `countBlockOcc` over a list of nodes. -/
def countBlockOccList (i : Nat) : List SNode → Nat
  | [] => 0
  | n :: rest => countBlockOcc i n + countBlockOccList i rest

end

/-- ControlFlowStructurer::isBackEdge: an edge from `from` to `to` exists
and `to` has an id less than or equal to `from`'s. -/
def isBackEdge (fr dst : IRBasicBlock) : Bool :=
  fr.succs.contains dst.id && decide (dst.id ≤ fr.id)

/-- ControlFlowStructurer::matchDoWhileLoop: two successors, one of them
the block itself, branch target equal to the self-loop; returns the exit
block. -/
def matchDoWhileLoop (block : IRBasicBlock) (fn : IRFunc) : Option IRBasicBlock :=
  if block.succs.length ≠ 2 then none
  else if block.stmts.isEmpty then none
  else
    match block.stmts.find? IRStmt.isBranchKind with
    | none => none
    | some branchStmt =>
      let branchTargetId := branchStmt.targetId
      let succ1Id := block.succs.getD 0 0
      let succ2Id := block.succs.getD 1 0
      match fn.getBlock succ1Id, fn.getBlock succ2Id with
      | some succ1, some succ2 =>
        let succ1IsLoopBack := succ1Id == block.id
        let succ2IsLoopBack := succ2Id == block.id
        if !succ1IsLoopBack && !succ2IsLoopBack then none
        else if succ1Id == branchTargetId && succ1IsLoopBack then some succ2
        else if succ2Id == branchTargetId && succ2IsLoopBack then some succ1
        else none
      | _, _ => none

/-- ControlFlowStructurer::matchWhileLoop: the branch target is the body,
the other successor the exit, and the body has a back edge to the block;
returns (body, exit). -/
def matchWhileLoop (block : IRBasicBlock) (fn : IRFunc) :
    Option (IRBasicBlock × IRBasicBlock) :=
  if block.succs.length ≠ 2 then none
  else if block.stmts.isEmpty then none
  else
    match block.stmts.find? IRStmt.isBranchKind with
    | none => none
    | some branchStmt =>
      let branchTargetId := branchStmt.targetId
      let succ1Id := block.succs.getD 0 0
      let succ2Id := block.succs.getD 1 0
      match fn.getBlock succ1Id, fn.getBlock succ2Id with
      | some succ1, some succ2 =>
        if succ1Id == branchTargetId then
          if isBackEdge succ1 block then some (succ1, succ2) else none
        else
          if isBackEdge succ2 block then some (succ2, succ1) else none
      | _, _ => none

/-- ControlFlowStructurer::matchIfThenElse: pick then/else by the branch
target; reject the if-then shape (then's only successor is the else);
the merge is the first common successor when one exists. -/
def matchIfThenElse (block : IRBasicBlock) (fn : IRFunc) :
    Option (IRBasicBlock × IRBasicBlock × Option IRBasicBlock) :=
  if block.succs.length ≠ 2 then none
  else if block.stmts.isEmpty then none
  else
    match block.stmts.find? IRStmt.isBranchKind with
    | none => none
    | some branchStmt =>
      let branchTargetId := branchStmt.targetId
      let succ1Id := block.succs.getD 0 0
      let succ2Id := block.succs.getD 1 0
      match fn.getBlock succ1Id, fn.getBlock succ2Id with
      | some succ1, some succ2 =>
        let candidateThen := if succ1Id == branchTargetId then succ1 else succ2
        let candidateElse := if succ1Id == branchTargetId then succ2 else succ1
        let thenSuccs := candidateThen.succs
        if thenSuccs.length == 1 && thenSuccs.contains candidateElse.id then none
        else
          match thenSuccs.find? (fun t => candidateElse.succs.contains t) with
          | some mergeId => some (candidateThen, candidateElse, fn.getBlock mergeId)
          | none => some (candidateThen, candidateElse, none)
      | _, _ => none

/-- ControlFlowStructurer::matchIfThen: the branch target is the then
block, the other successor the merge; returns (then, merge). -/
def matchIfThen (block : IRBasicBlock) (fn : IRFunc) :
    Option (IRBasicBlock × IRBasicBlock) :=
  if block.succs.length ≠ 2 then none
  else if block.stmts.isEmpty then none
  else
    match block.stmts.find? IRStmt.isBranchKind with
    | none => none
    | some branchStmt =>
      let branchTargetId := branchStmt.targetId
      let succ1Id := block.succs.getD 0 0
      let succ2Id := block.succs.getD 1 0
      match fn.getBlock succ1Id, fn.getBlock succ2Id with
      | some succ1, some succ2 =>
        if succ1Id == branchTargetId then some (succ1, succ2) else some (succ2, succ1)
      | _, _ => none

/-- BFS loop of ControlFlowStructurer::collectRegionBlocks: a dequeued
block equal to the exit or exclude block is skipped; otherwise it is
collected and its unvisited successors (other than exit/exclude) are
enqueued. -/
def collectLoop (fn : IRFunc) (exitId exclId : Nat) :
    Nat → List IRBasicBlock → List Nat → List IRBasicBlock → List IRBasicBlock
  | 0, _, _, acc => acc
  | fuel + 1, queue, visited, acc =>
    match queue with
    | [] => acc
    | block :: rest =>
      if block.id == exitId || block.id == exclId then
        collectLoop fn exitId exclId fuel rest visited acc
      else
        let step := block.succs.foldl
          (fun (qv : List IRBasicBlock × List Nat) succId =>
            if qv.2.contains succId then qv
            else
              let vis' := qv.2 ++ [succId]
              if succId ≠ exitId ∧ succId ≠ exclId then
                match fn.getBlock succId with
                | some succBlock => (qv.1 ++ [succBlock], vis')
                | none => (qv.1, vis')
              else (qv.1, vis'))
          (rest, visited)
        collectLoop fn exitId exclId fuel step.1 step.2 (acc ++ [block])

/-- ControlFlowStructurer::collectRegionBlocks (the UINT32_MAX sentinel
stands for an absent exit/exclude block). -/
def collectRegionBlocks (startBlock : IRBasicBlock) (exitBlock excludeBlock : Option IRBasicBlock)
    (fn : IRFunc) (fuel : Nat) : List IRBasicBlock :=
  let exitId := match exitBlock with | some e => e.id | none => 4294967295
  let exclId := match excludeBlock with | some e => e.id | none => 4294967295
  collectLoop fn exitId exclId fuel [startBlock] [startBlock.id] []

/-- Loop body of ControlFlowStructurer::analyzeRegion: process the blocks
in order, skipping processed ids, matching Do-While, While, If-Then-Else,
If-Then in that order, and emitting a verbatim Sequence otherwise.  The
condition block of a matched While/If pattern is deliberately not
attached to any node (only its condition expression is captured). -/
def analyzeLoop (fn : IRFunc) :
    Nat → List IRBasicBlock → List Nat → List SNode → List SNode
  | 0, _, _, acc => acc
  | _ + 1, [], _, acc => acc
  | fuel + 1, block :: rest, processedIds, acc =>
    if processedIds.contains block.id then
      analyzeLoop fn fuel rest processedIds acc
    else
      match matchDoWhileLoop block fn with
      | some _exitBlock =>
        let condition := (block.stmts.find? IRStmt.isBranchKind).bind IRStmt.condExpr
        let bodyNode : SNode := .node .SEQUENCE none [] [block.id]
        let dwNode : SNode := .node .DO_WHILE condition [bodyNode] []
        analyzeLoop fn fuel rest (processedIds ++ [block.id]) (acc ++ [dwNode])
      | none =>
      match matchWhileLoop block fn with
      | some (bodyBlock, exitBlock) =>
        let condition := (block.stmts.find? IRStmt.isBranchKind).bind IRStmt.condExpr
        let bodyRegion := collectRegionBlocks bodyBlock (some exitBlock) (some block) fn fuel
        let bodyNode : Option SNode :=
          if bodyRegion.isEmpty then none
          else some (.node .SEQUENCE none (analyzeLoop fn fuel bodyRegion [] []) [])
        let children := match bodyNode with | some n => [n] | none => []
        let whileNode : SNode := .node .WHILE condition children []
        let processed1 := processedIds ++ bodyRegion.map (·.id) ++ [block.id]
        analyzeLoop fn fuel rest processed1 (acc ++ [whileNode])
      | none =>
      match matchIfThenElse block fn with
      | some (thenBlock, elseBlock, mergeBlock) =>
        let condition := (block.stmts.find? IRStmt.isBranchKind).bind IRStmt.condExpr
        let thenRegion := collectRegionBlocks thenBlock mergeBlock (some block) fn fuel
        let thenNode : Option SNode :=
          if thenRegion.isEmpty then none
          else some (.node .SEQUENCE none (analyzeLoop fn fuel thenRegion [] []) [])
        let elseRegion := collectRegionBlocks elseBlock mergeBlock (some block) fn fuel
        let elseNode : Option SNode :=
          if elseRegion.isEmpty then none
          else some (.node .SEQUENCE none (analyzeLoop fn fuel elseRegion [] []) [])
        let children := (match thenNode with | some n => [n] | none => []) ++
                        (match elseNode with | some n => [n] | none => [])
        let ifNode : SNode := .node .IF_THEN_ELSE condition children []
        let processed1 := processedIds ++ thenRegion.map (·.id) ++ elseRegion.map (·.id) ++
                          [block.id]
        analyzeLoop fn fuel rest processed1 (acc ++ [ifNode])
      | none =>
      match matchIfThen block fn with
      | some (thenBlock, mergeBlock) =>
        let condition :=
          match block.stmts.getLast? with
          | some lastStmt => if lastStmt.isBranchKind then lastStmt.condExpr else none
          | none => none
        let thenRegion := collectRegionBlocks thenBlock (some mergeBlock) (some block) fn fuel
        let thenNode : Option SNode :=
          if thenRegion.isEmpty then none
          else some (.node .SEQUENCE none (analyzeLoop fn fuel thenRegion [] []) [])
        let children := match thenNode with | some n => [n] | none => []
        let ifNode : SNode := .node .IF_THEN condition children []
        let processed1 := processedIds ++ thenRegion.map (·.id) ++ [block.id]
        analyzeLoop fn fuel rest processed1 (acc ++ [ifNode])
      | none =>
        let seqNode : SNode := .node .SEQUENCE none [] [block.id]
        analyzeLoop fn fuel rest (processedIds ++ [block.id]) (acc ++ [seqNode])

/-- ControlFlowStructurer::analyzeRegion: nullptr for an empty region,
else a SEQUENCE whose children come from the processing loop. -/
def analyzeRegion (blocks : List IRBasicBlock) (fn : IRFunc) (fuel : Nat) : Option SNode :=
  if blocks.isEmpty then none
  else some (.node .SEQUENCE none (analyzeLoop fn fuel blocks [] []) [])

/-- BFS over the CFG from the entry block (first phase of
ControlFlowStructurer::structureFunction). -/
def bfsBlocks (fn : IRFunc) :
    Nat → List IRBasicBlock → List Nat → List IRBasicBlock → List IRBasicBlock
  | 0, _, _, out => out
  | fuel + 1, queue, visited, out =>
    match queue with
    | [] => out
    | block :: rest =>
      let step := block.succs.foldl
        (fun (qv : List IRBasicBlock × List Nat) succId =>
          if qv.2.contains succId then qv
          else
            let vis' := qv.2 ++ [succId]
            match fn.getBlock succId with
            | some succBlock => (qv.1 ++ [succBlock], vis')
            | none => (qv.1, vis'))
        (rest, visited)
      bfsBlocks fn fuel step.1 step.2 (out ++ [block])

/-- ControlFlowStructurer::structureFunction: nullptr without an entry
block; otherwise analyzeRegion over the BFS order, falling back to an
empty SEQUENCE root when the region analysis returns nothing. -/
def structureFunction (fn : IRFunc) (fuel : Nat) : Option SNode :=
  match fn.getBlock fn.entryBlockId with
  | none => none
  | some entryBlock =>
    let blocks := bfsBlocks fn fuel [entryBlock] [entryBlock.id] []
    match analyzeRegion blocks fn fuel with
    | some structured => some structured
    | none => some (.node .SEQUENCE none [] [])

/-! ## CFG well-formedness (used to verify the lifter's edge symmetry) -/

/-- Predecessor/successor sets are mutually consistent:
`A ∈ preds(B) ↔ B ∈ succs(A)` for all blocks A, B of the function. -/
def EdgeSym (fn : IRFunc) : Prop :=
  ∀ a ∈ fn.blocks, ∀ b ∈ fn.blocks, (a.id ∈ b.preds ↔ b.id ∈ a.succs)

/-- Every block id, and every id in any edge set, is below the id
counter (so a freshly created block can appear in no edge set). -/
def Bounded (fn : IRFunc) : Prop :=
  ∀ b ∈ fn.blocks, b.id < fn.nextBlockId ∧
    (∀ x ∈ b.succs, x < fn.nextBlockId) ∧ (∀ x ∈ b.preds, x < fn.nextBlockId)

/-- The invariant the lifter maintains on the function under
construction. -/
def WFCfg (fn : IRFunc) : Prop := Bounded fn ∧ EdgeSym fn

/-! ## Specification-side helpers for the call-lifting claim -/

/-- Hexadecimal rendering of a number (for the claim's `func_<hex>`;
the decimal-vs-hexadecimal discrepancy is case-insensitive, e.g. 255
renders as "ff"/"FF" but the code produces "255"). -/
def hexString (n : Nat) : String := (Nat.toDigits 16 n).asString

/-- Display-name resolution exactly as liftCall performs it (Address →
decimal `func_<n>`, String → the string, otherwise `func_unknown`;
`none` models the exception thrown when an Address operand does not
carry an int32 payload). -/
def specCallName : List POperand → Option String
  | [] => some "func_unknown"
  | op :: _ =>
    if op.type == .ADDRESS then (op.getInt32).map (fun v => "func_" ++ toString v)
    else if op.type == .STRING then op.getString
    else some "func_unknown"

/-! ## Concrete instances used by the per-claim witnesses and
counterexamples -/

/-- Section for the C3 counterexample: overlapped by `c3secB`. -/
def c3secA : PESec := ⟨4096, 8192, 1024, []⟩

/-- Section whose range `[0x2000, 0x3000)` is inside `c3secA`'s range
`[0x1000, 0x3000)`; lookups inside it resolve to `c3secA` first. -/
def c3secB : PESec := ⟨8192, 4096, 20480, []⟩

/-- Section whose `va + vsize` wraps past 2^32, making containsRVA
reject every RVA inside it. -/
def c3secW : PESec := ⟨4294963200, 8192, 256, []⟩

/-- The three-section image of the C3 counterexample. -/
def c3sections : List PESec := [c3secA, c3secB, c3secW]

/-- Well-behaved single section for the C3 witness. -/
def c3wSec : PESec := ⟨4096, 16, 512, []⟩

/-- Section with three raw bytes for the C10 witness. -/
def c10sec : PESec := ⟨4096, 4, 0, [1, 2, 3]⟩

/-- A lone ExitProc instruction (category ControlFlow, isReturn). -/
def c4instr : PInstr :=
  { address := 4096, length := 1, mnemonic := "ExitProc",
    category := .CONTROL_FLOW, isReturn := true }

/-- The function the lifter produces from `[c4instr]`. -/
def c4fn : IRFunc :=
  ⟨"f", .basic .VARIANT, 4096, [⟨0, [.ret none], [], []⟩], 1, 0⟩

/-- The single block of `c4fn`. -/
def c4blk : IRBasicBlock := ⟨0, [.ret none], [], []⟩

/-- Empty primary opcode table (no metadata entry for any opcode). -/
def pEmptyPrimTable : Nat → Option POpcodeInfo := fun _ => none

/-- Empty extended opcode table. -/
def pEmptyExtTable : Nat → Nat → Option POpcodeInfo := fun _ _ => none

/-- Call-category instruction whose first operand is an Address with
value 255 and whose mnemonic selects the statement form. -/
def c8instr : PInstr :=
  { mnemonic := "CallSub", category := .CALL,
    operands := [⟨.ADDRESS, .i32 255, .UNKNOWN⟩] }

/-- The function the lifter produces from `[c8instr]`: one Call
statement named with the decimal rendering. -/
def c8fn : IRFunc :=
  ⟨"f", .basic .VARIANT, 0, [⟨0, [.callStmt "func_255" []], [], []⟩], 1, 0⟩

/-- Call-category instruction with no operands whose mnemonic selects
the expression form (contains CallFunc). -/
def c8wInstr : PInstr := { mnemonic := "CallFuncStr", category := .CALL, operands := [] }

/-- A minimal lifting context for the C8 witness. -/
def c8wCtx : LiftCtx := ⟨⟨"g", .basic .VARIANT, 0, [⟨0, [], [], []⟩], 1, 0⟩, 0, [], []⟩

/-- Condition expression of the C1 failing input. -/
def c1cond : IRExpr := .var ⟨0, "c", .basic .BOOLEAN⟩

/-- Entry block of the C1 failing input: a Branch to block 1 with
fall-through to block 2 (an if-then shape). -/
def c1b0 : IRBasicBlock := ⟨0, [.branch c1cond 1], [], [1, 2]⟩

/-- Then-block of the C1 failing input. -/
def c1b1 : IRBasicBlock := ⟨1, [.goto 2], [0], [2]⟩

/-- Merge block of the C1 failing input. -/
def c1b2 : IRBasicBlock := ⟨2, [.ret none], [0, 1], []⟩

/-- The C1 failing input: a three-block if-then CFG whose edges are
consistent and whose every block is reachable from the entry. -/
def c1fn : IRFunc := ⟨"f", .basic .VARIANT, 0, [c1b0, c1b1, c1b2], 3, 0⟩

/-- Fallback node used to inspect the structurer's optional result. -/
def emptySeqNode : SNode := .node .SEQUENCE none [] []

/-! ## Theorems -/

/-- C2: for every binary expression the emitter prints, a child operand
is wrapped in parentheses iff the child's operator precedence
(per the claim's table) is strictly lower than the parent's, or the
precedences are equal and the child is the right operand; a child that
is a constant, variable, or temporary is never parenthesized. -/
theorem needsParentheses_matches_spec :
    ∀ (parentOp childOp : IRExpressionKind) (isLeftChild : Bool),
      ((childOp = .CONSTANT ∨ childOp = .VARIABLE ∨ childOp = .TEMPORARY) →
        needsParentheses parentOp childOp isLeftChild = false) ∧
      ((claimPrec parentOp).isSome = true → (claimPrec childOp).isSome = true →
        (needsParentheses parentOp childOp isLeftChild = true ↔
          ((claimPrec childOp).getD 0 < (claimPrec parentOp).getD 0 ∨
           ((claimPrec childOp).getD 0 = (claimPrec parentOp).getD 0 ∧
            isLeftChild = false)))) := by
  decide

/-- Witness for C2: a constant child of `+` is not parenthesized, and a
right-hand `+` child of `+` is. -/
theorem needsParentheses_matches_spec_witness :
    needsParentheses .ADD .CONSTANT true = false ∧
    needsParentheses .ADD .ADD false = true :=
  ⟨(needsParentheses_matches_spec .ADD .CONSTANT true).1 (Or.inl rfl),
   ((needsParentheses_matches_spec .ADD .ADD false).2 (by decide) (by decide)).mpr
     (by decide)⟩

/-- C9: type unification agrees with the spec's case order (equal →
that type; either Variant → the other; both numeric → widest per
Double > Single > Currency > Long > Integer > Byte; either String →
String; otherwise Variant), and the inferred type of an arithmetic
Add/Sub/Mul/Div expression is the unification of its operand types. -/
theorem unifyTypes_matches_spec :
    ∀ t1 t2 : IRType,
      unifyTypes t1 t2 = specUnify t1 t2 ∧
      inferBinaryOpType .ADD t1 t2 = unifyTypes t1 t2 ∧
      inferBinaryOpType .SUBTRACT t1 t2 = unifyTypes t1 t2 ∧
      inferBinaryOpType .MULTIPLY t1 t2 = unifyTypes t1 t2 ∧
      inferBinaryOpType .DIVIDE t1 t2 = unifyTypes t1 t2 := by
  intro t1 t2
  refine ⟨?_, rfl, rfl, rfl, rfl⟩
  cases t1 with
  | basic k1 =>
    cases t2 with
    | basic k2 => cases k1 <;> cases k2 <;> rfl
    | userDefined n2 => cases k1 <;> rfl
    | array e2 d2 => cases k1 <;> rfl
  | userDefined n1 =>
    cases t2 with
    | basic k2 => cases k2 <;> rfl
    | userDefined n2 => rfl
    | array e2 d2 => rfl
  | array e1 d1 =>
    cases t2 with
    | basic k2 => cases k2 <;> rfl
    | userDefined n2 => rfl
    | array e2 d2 => rfl

/-- C6 counterexample: on an empty instruction sequence the lifter does
not produce an IR function at all — it fails with an error, so no entry
block with a Return exists. -/
theorem lift_empty_counterexample :
    lift [] "f" 4096 = .error "No instructions to lift" := rfl

/-- C6 (amended): on an empty instruction sequence the lifter fails with
the error "No instructions to lift" and produces no IR function. -/
theorem lift_empty_fails :
    ∀ (functionName : String) (startAddress : Nat),
      lift [] functionName startAddress = .error "No instructions to lift" :=
  fun _ _ => rfl

/-- C1: the structurer drops the condition block of a matched if-then.
On the three-block if-then CFG `c1fn` (entry block 0 branches to block 1
with fall-through to block 2), block 0 is a block of the input CFG, the
structurer returns a tree, and block 0 is attached to no node of that
tree (it appears zero times instead of exactly once); blocks 1 and 2
each appear once. -/
theorem structurer_drops_condition_block :
    (c1fn.blocks.map IRBasicBlock.id).contains 0 = true ∧
    (structureFunction c1fn 20).isSome = true ∧
    countBlockOcc 0 ((structureFunction c1fn 20).getD emptySeqNode) = 0 ∧
    countBlockOcc 1 ((structureFunction c1fn 20).getD emptySeqNode) = 1 ∧
    countBlockOcc 2 ((structureFunction c1fn 20).getD emptySeqNode) = 1 :=
  ⟨rfl, rfl, rfl, rfl, rfl⟩

/-- C8 counterexample: lifting the Call instruction `c8instr`, whose
first operand is an Address with value 255, emits a Call statement named
"func_255" — the decimal rendering — which differs from the
"func_" + hexadecimal form the claim requires. -/
theorem liftCall_decimal_counterexample :
    lift [c8instr] "f" 0 = .ok c8fn ∧
    c8fn.blocks = [⟨0, [.callStmt "func_255" []], [], []⟩] ∧
    "func_255" ≠ "func_" ++ hexString 255 := by
  refine ⟨rfl, rfl, ?_⟩
  decide

/-- C8 (amended): when the lifter translates a Call-category
instruction, the display name is resolved from the first operand as
`specCallName` does (Address → "func_" followed by the int32 value in
decimal, String → the string, anything else → "func_unknown"); if the
mnemonic contains CallFunc or CallI4 a Call expression with that name is
pushed on the evaluation stack, otherwise a Call statement with that
name is appended to the current block. -/
theorem liftCall_behavior :
    ∀ (i : PInstr) (ctx : LiftCtx) (fname : String),
      i.category = .CALL →
      specCallName i.operands = some fname →
      liftInstruction i ctx = some
        (if strContains i.mnemonic "CallFunc" || strContains i.mnemonic "CallI4" then
          { ctx with evalStack := .call fname [] (.basic .VARIANT) :: ctx.evalStack }
        else
          { ctx with fn := ctx.fn.addStmt ctx.currentBlock (.callStmt fname []) }) := by
  intro i ctx fname hcat hname
  obtain ⟨addr, len, opc, ext, mnem, ops, bts, cat, sd, ib, icb, ic, ir, bo⟩ := i
  simp only at hcat
  subst hcat
  have hn2 : specCallName ops = some fname := hname
  show liftCall _ ctx = _
  unfold liftCall
  cases ops with
  | nil =>
    simp only [specCallName] at hn2
    injection hn2 with h
    subst h
    dsimp only
    split <;> rfl
  | cons op rest =>
    have hsp : specCallName (op :: rest) =
        (if op.type == .ADDRESS then (op.getInt32).map (fun v => "func_" ++ toString v)
         else if op.type == .STRING then op.getString
         else some "func_unknown") := rfl
    rw [hsp] at hn2
    dsimp only
    simp only [hn2]
    split <;> rfl

/-- Witness for C8: the operand-less CallFuncStr instruction pushes a
Call expression named func_unknown. -/
theorem liftCall_behavior_witness :
    liftInstruction c8wInstr c8wCtx =
      some { c8wCtx with evalStack := [.call "func_unknown" [] (.basic .VARIANT)] } :=
  liftCall_behavior c8wInstr c8wCtx "func_unknown" rfl rfl

/-- C5 counterexample: with a metadata table holding no entry for the
primary opcode 0x00, disassembleOne on the one-byte buffer [0x00] fails
(returns no record at all, rather than an Unknown-category record), and
disassembly of the stream stops with an empty result. -/
theorem pcode_unknown_primary_counterexample :
    PCodeDisassembler.disassembleOne pEmptyPrimTable pEmptyExtTable [0] 0 4096 = none ∧
    PCodeDisassembler.disassemble pEmptyPrimTable pEmptyExtTable [0] 5 0 4096 = [] :=
  ⟨rfl, rfl⟩

/-- C5 (amended): an extended opcode pair (primary in 0xFB..0xFF) with
no metadata entry yields an Unknown-category record of length 2 and
disassembly of the stream continues past it; a primary opcode outside
the extended range with no metadata entry makes disassembleOne fail
(return nothing) and stops disassembly of the stream. -/
theorem pcode_unknown_opcode_behavior :
    ∀ (primTable : Nat → Option POpcodeInfo) (extTable : Nat → Nat → Option POpcodeInfo)
      (data : List Nat) (offset addr : Nat),
      (∀ b1 b2, offset + 1 < data.length → data.getD offset 0 = b1 →
        isExtendedOpcode b1 = true → data.getD (offset + 1) 0 = b2 →
        extTable b1 b2 = none →
        (PCodeDisassembler.disassembleOne primTable extTable data offset addr =
          some ({ address := addr, length := 2, opcode := b1, extOpcode := b2,
                  mnemonic := "Unknown", operands := [],
                  bytes := (data.drop offset).take 2, category := .UNKNOWN,
                  stackDelta := 0, isBranch := false, isConditionalBranch := false,
                  isCall := false, isReturn := false, branchOffset := 0 }, offset + 2) ∧
         ∀ fuel, PCodeDisassembler.disassemble primTable extTable data (fuel + 1) offset addr =
          { address := addr, length := 2, opcode := b1, extOpcode := b2,
            mnemonic := "Unknown", operands := [],
            bytes := (data.drop offset).take 2, category := .UNKNOWN,
            stackDelta := 0, isBranch := false, isConditionalBranch := false,
            isCall := false, isReturn := false, branchOffset := 0 } ::
            PCodeDisassembler.disassemble primTable extTable data fuel (offset + 2)
              (addr + 2))) ∧
      (∀ b, offset < data.length → data.getD offset 0 = b →
        isExtendedOpcode b = false → primTable b = none →
        (PCodeDisassembler.disassembleOne primTable extTable data offset addr = none ∧
         ∀ fuel, PCodeDisassembler.disassemble primTable extTable data (fuel + 1) offset addr
           = [])) := by
  intro primTable extTable data offset addr
  constructor
  · intro b1 b2 hlen hb1 hext hb2 htab
    have hlt : offset < data.length := by omega
    have hone : PCodeDisassembler.disassembleOne primTable extTable data offset addr =
        some ({ address := addr, length := 2, opcode := b1, extOpcode := b2,
                mnemonic := "Unknown", operands := [],
                bytes := (data.drop offset).take 2, category := .UNKNOWN,
                stackDelta := 0, isBranch := false, isConditionalBranch := false,
                isCall := false, isReturn := false, branchOffset := 0 }, offset + 2) := by
      unfold PCodeDisassembler.disassembleOne
      rw [if_neg (by omega)]
      unfold decodeInstruction preadByte
      rw [if_pos hlt, hb1]
      dsimp only
      rw [if_pos hext, if_pos (show offset + 1 < data.length by omega), hb2]
      dsimp only
      rw [htab]
      dsimp only
      have h2 : offset + 1 + 1 - offset = 2 := by omega
      rw [h2]
    refine ⟨hone, ?_⟩
    intro fuel
    conv_lhs => unfold PCodeDisassembler.disassemble
    rw [if_pos hlt, hone]
  · intro b hlt hb hext htab
    have hone : PCodeDisassembler.disassembleOne primTable extTable data offset addr =
        none := by
      unfold PCodeDisassembler.disassembleOne
      rw [if_neg (by omega)]
      unfold decodeInstruction preadByte
      rw [if_pos hlt, hb]
      dsimp only
      rw [if_neg (show ¬ isExtendedOpcode b = true by simp [hext]), htab]
    refine ⟨hone, ?_⟩
    intro fuel
    conv_lhs => unfold PCodeDisassembler.disassemble
    rw [if_pos hlt, hone]

/-- Witness for C5 (amended): with the empty tables, 0xFB 0x07 decodes
to an Unknown record and the stream continues; 0x05 fails and the
stream stops. -/
theorem pcode_unknown_opcode_behavior_witness :
    PCodeDisassembler.disassembleOne pEmptyPrimTable pEmptyExtTable [251, 7] 0 9 =
      some ({ address := 9, length := 2, opcode := 251, extOpcode := 7,
              mnemonic := "Unknown", operands := [], bytes := [251, 7],
              category := .UNKNOWN, stackDelta := 0, isBranch := false,
              isConditionalBranch := false, isCall := false, isReturn := false,
              branchOffset := 0 }, 2) ∧
    PCodeDisassembler.disassembleOne pEmptyPrimTable pEmptyExtTable [5] 0 9 = none :=
  ⟨((pcode_unknown_opcode_behavior pEmptyPrimTable pEmptyExtTable [251, 7] 0 9).1
      251 7 (by decide) rfl (by decide) rfl rfl).1,
   ((pcode_unknown_opcode_behavior pEmptyPrimTable pEmptyExtTable [5] 0 9).2
      5 (by decide) rfl (by decide) rfl).1⟩

/-- C7: for every input whose first byte is a primary opcode the x86
decoder does not cover (no dispatch branch matches it), disassembleOne
returns an instruction record with opcode Unknown and length exactly 1
(raw bytes = that one byte, no operands) rather than a decode error. -/
theorem x86_unknown_primary_resync :
    ∀ (data : List Nat) (address b : Nat) (rest : List Nat),
      data = b :: rest →
      X86Disassembler.covered b = false →
      X86Disassembler.disassembleOne data address =
        some { address := address, opcode := .UNKNOWN, length := 1,
               bytes := [b], operands := [] } := by
  intro data address b rest hdata hcov
  subst hdata
  simp only [X86Disassembler.covered, Bool.or_eq_false_iff, Bool.and_eq_false_iff,
    decide_eq_false_iff_not, beq_eq_false_iff_ne, ne_eq] at hcov
  unfold X86Disassembler.disassembleOne
  dsimp only
  repeat rw [if_neg (by omega)]

/-- Witness for C7: byte 0x06 (push es, not covered) yields the Unknown
record of length 1. -/
theorem x86_unknown_primary_resync_witness :
    X86Disassembler.disassembleOne [6] 17 =
      some { address := 17, opcode := .UNKNOWN, length := 1,
             bytes := [6], operands := [] } :=
  x86_unknown_primary_resync [6] 17 6 [] rfl (by decide)

/-- C3 counterexample: in the parsed image `c3sections`, the RVA
`c3secB.va + 0` (with `0 < c3secB.vsize`) resolves through the earlier
overlapping section `c3secA` to file offset 0x1400 instead of
`c3secB.rawPtr + 0 = 0x5000`; and the RVA `c3secW.va + 0` (with
`0 < c3secW.vsize`) fails to resolve at all because `va + vsize` wraps
past 2^32 in containsRVA. -/
theorem rvaToFileOffset_counterexample :
    rvaToFileOffset c3sections (c3secB.va + 0) = some 5120 ∧
    (5120 : Nat) ≠ (c3secB.rawPtr + 0) % U32 ∧
    0 < c3secB.vsize ∧
    rvaToFileOffset c3sections (c3secW.va + 0) = none ∧
    0 < c3secW.vsize := by
  refine ⟨rfl, by decide, by decide, rfl, by decide⟩

/-- C3 (amended): for every parsed image, section s and offset
k < s.vsize, provided s.va + s.vsize does not reach 2^32 and no earlier
section's virtual range contains s.va + k, rvaToFileOffset(s.va + k)
succeeds and returns (s.rawPtr + k) mod 2^32. -/
theorem rvaToFileOffset_roundtrip :
    ∀ (pre post : List PESec) (s : PESec) (k : Nat),
      k < s.vsize →
      s.va + s.vsize < U32 →
      (∀ t ∈ pre, t.containsRVA (s.va + k) = false) →
      rvaToFileOffset (pre ++ s :: post) (s.va + k) = some ((s.rawPtr + k) % U32) := by
  intro pre post s k hk hnw hpre
  induction pre with
  | nil =>
    have hc : s.containsRVA (s.va + k) = true := by
      unfold PESec.containsRVA
      have h1 : (s.va + s.vsize) % U32 = s.va + s.vsize := Nat.mod_eq_of_lt hnw
      rw [h1]
      simp only [Bool.and_eq_true, decide_eq_true_eq]
      omega
    unfold rvaToFileOffset getRVAData getSectionByRVA
    rw [List.nil_append, List.find?_cons]
    dsimp only
    rw [hc]
    dsimp only
    unfold PESec.rvaToOffset
    rw [hc]
    simp only [if_true]
    have h2 : ((s.va + k : Nat) : Int) - (s.va : Int) = (k : Int) := by omega
    rw [h2]
    have h3 : ¬ ((k : Int) < 0) := by omega
    rw [if_neg h3]
    simp
  | cons t ts ih =>
    have ht : t.containsRVA (s.va + k) = false := hpre t (List.mem_cons_self t ts)
    have hrest : ∀ u ∈ ts, u.containsRVA (s.va + k) = false :=
      fun u hu => hpre u (List.mem_cons_of_mem t hu)
    have hfold := ih hrest
    unfold rvaToFileOffset getRVAData getSectionByRVA at hfold ⊢
    rw [List.cons_append, List.find?_cons]
    dsimp only
    rw [ht]
    exact hfold

/-- Witness for C3 (amended): a single well-behaved section at va
0x1000 with raw pointer 0x200 maps va+3 to 0x203. -/
theorem rvaToFileOffset_roundtrip_witness :
    rvaToFileOffset [c3wSec] (c3wSec.va + 3) = some ((c3wSec.rawPtr + 3) % U32) :=
  rvaToFileOffset_roundtrip [] [] c3wSec 3 (by decide) (by decide)
    (fun t ht => absurd ht (List.not_mem_nil t))

/-- C10: readAtRVA never reports an error — when the RVA falls in no
section it returns the empty byte list, and otherwise it returns the
section bytes from the in-section offset clamped to the end of the raw
data (length `min size (available)`), so callers can silently receive a
truncated or empty read. -/
theorem readAtRVA_clamps :
    ∀ (sections : List PESec) (rva size : Nat),
      (getSectionByRVA sections rva = none → readAtRVA sections rva size = []) ∧
      (∀ s off, getRVAData sections rva = some (s, off) → s.data.length < U64 →
        readAtRVA sections rva size =
          (s.data.drop off).take (min size (s.data.length - off))) := by
  intro sections rva size
  constructor
  · intro hnone
    unfold readAtRVA getRVAData
    rw [hnone]
  · intro s off hsome hlen
    unfold readAtRVA
    rw [hsome]
    dsimp only
    by_cases hclamp : off + size > s.data.length
    · rw [if_pos hclamp]
      by_cases hoff : off ≤ s.data.length
      · have h1 : (U64 + s.data.length - off) % U64 = s.data.length - off := by
          have : U64 + s.data.length - off = U64 + (s.data.length - off) := by omega
          rw [this, Nat.add_mod_left]
          exact Nat.mod_eq_of_lt (by omega)
        rw [h1]
        have h2 : min size (s.data.length - off) = s.data.length - off := by omega
        rw [h2]
      · have hdrop : s.data.drop off = [] := List.drop_eq_nil_of_le (by omega)
        rw [hdrop]
        simp
    · rw [if_neg hclamp]
      have h2 : min size (s.data.length - off) = size := by omega
      rw [h2]

/-- Witness for C10: reading 10 bytes at offset 1 of a 3-byte section
returns the 2 available bytes. -/
theorem readAtRVA_clamps_witness :
    readAtRVA [c10sec] 4097 10 = [2, 3] := by
  have h := (readAtRVA_clamps [c10sec] 4097 10).2 c10sec 1 rfl (by decide)
  simpa using h

/-- Membership in an unordered_set insert. -/
theorem mem_insertSet {x y : Nat} {l : List Nat} :
    x ∈ insertSet y l ↔ x = y ∨ x ∈ l := by
  unfold insertSet
  split
  · next h =>
    have hy : y ∈ l := by simpa using h
    constructor
    · exact Or.inr
    · rintro (rfl | hx)
      · exact hy
      · exact hx
  · simp [List.mem_append, or_comm]

/-- A successful getBlock returns a member block carrying the requested
id. -/
theorem getBlock_eq_some {fn : IRFunc} {i : Nat} {b : IRBasicBlock}
    (h : fn.getBlock i = some b) : b ∈ fn.blocks ∧ b.id = i := by
  unfold IRFunc.getBlock at h
  refine ⟨List.mem_of_find?_eq_some h, ?_⟩
  have hp := List.find?_some h
  simpa using hp

/-- createBasicBlock preserves the CFG invariant. -/
theorem wfCfg_createBasicBlock {fn : IRFunc} (h : WFCfg fn) :
    WFCfg (fn.createBasicBlock).2 := by
  obtain ⟨hb, hs⟩ := h
  unfold IRFunc.createBasicBlock WFCfg Bounded EdgeSym
  dsimp only
  constructor
  · intro b hbm
    simp only [IRFunc.createBasicBlock, List.mem_append, List.mem_singleton] at hbm
    rcases hbm with hbm | rfl
    · obtain ⟨h1, h2, h3⟩ := hb b hbm
      exact ⟨by omega, fun x hx => by have := h2 x hx; omega,
             fun x hx => by have := h3 x hx; omega⟩
    · refine ⟨Nat.lt_succ_self _, ?_, ?_⟩ <;> intro x hx <;> simp at hx
  · intro a ham b hbm
    simp only [IRFunc.createBasicBlock, List.mem_append, List.mem_singleton] at ham hbm
    rcases ham with ham | rfl <;> rcases hbm with hbm | rfl
    · exact hs a ham b hbm
    · constructor
      · intro hx
        simp at hx
      · intro hx
        have := (hb a ham).2.1 fn.nextBlockId hx
        omega
    · constructor
      · intro hx
        have := (hb b hbm).2.2 fn.nextBlockId hx
        omega
      · intro hx
        simp at hx
    · simp

/-- addStmt preserves the CFG invariant (it touches only statement
lists). -/
theorem wfCfg_addStmt {fn : IRFunc} {blockId : Nat} {s : IRStmt} (h : WFCfg fn) :
    WFCfg (fn.addStmt blockId s) := by
  obtain ⟨hb, hs⟩ := h
  constructor
  · intro b hbm
    simp only [IRFunc.addStmt, updateBlock, List.mem_map] at hbm
    obtain ⟨a, ha, rfl⟩ := hbm
    obtain ⟨h1, h2, h3⟩ := hb a ha
    by_cases hid : (a.id == blockId) = true <;> simp only [hid, if_true, if_false] <;>
      exact ⟨h1, h2, h3⟩
  · intro a ham b hbm
    simp only [IRFunc.addStmt, updateBlock, List.mem_map] at ham hbm
    obtain ⟨a0, ha0, rfl⟩ := ham
    obtain ⟨b0, hb0, rfl⟩ := hbm
    have := hs a0 ha0 b0 hb0
    by_cases hida : (a0.id == blockId) = true <;> by_cases hidb : (b0.id == blockId) = true <;>
      simp only [hida, hidb, if_true, if_false] <;> exact this

/-- When both endpoints exist, connectBlocks maps every block to itself
with `toId` inserted into the successor set of the `fromId` block and
`fromId` inserted into the predecessor set of the `toId` block. -/
theorem connectBlocks_blocks_eq {fn : IRFunc} {x y : Nat}
    (hx : (fn.getBlock x).isSome = true) (hy : (fn.getBlock y).isSome = true) :
    (fn.connectBlocks x y).blocks = fn.blocks.map (fun b =>
      { b with succs := if b.id == x then insertSet y b.succs else b.succs,
               preds := if b.id == y then insertSet x b.preds else b.preds }) ∧
    (fn.connectBlocks x y).nextBlockId = fn.nextBlockId := by
  unfold IRFunc.connectBlocks
  rw [if_pos (by rw [hx, hy]; rfl)]
  dsimp only [updateBlock]
  rw [List.map_map]
  refine ⟨?_, rfl⟩
  have hfun : ((fun b : IRBasicBlock =>
        if (b.id == y) = true then { b with preds := insertSet x b.preds } else b) ∘
      (fun b : IRBasicBlock =>
        if (b.id == x) = true then { b with succs := insertSet y b.succs } else b)) =
      (fun b : IRBasicBlock =>
        { b with succs := if b.id == x then insertSet y b.succs else b.succs,
                 preds := if b.id == y then insertSet x b.preds else b.preds }) := by
    funext b
    by_cases hbx : (b.id == x) = true <;> by_cases hby : (b.id == y) = true <;>
      simp [Function.comp, hbx, hby]
  rw [hfun]

/-- connectBlocks preserves the CFG invariant. -/
theorem wfCfg_connectBlocks {fn : IRFunc} {x y : Nat} (h : WFCfg fn) :
    WFCfg (fn.connectBlocks x y) := by
  obtain ⟨hb, hs⟩ := h
  by_cases hex : ((fn.getBlock x).isSome && (fn.getBlock y).isSome) = true
  case neg =>
    unfold IRFunc.connectBlocks
    rw [if_neg (by simpa using hex)]
    exact ⟨hb, hs⟩
  case pos =>
    obtain ⟨hx, hy⟩ := Bool.and_eq_true_iff.mp hex
    obtain ⟨bx, hbx⟩ := Option.isSome_iff_exists.mp hx
    obtain ⟨byb, hby⟩ := Option.isSome_iff_exists.mp hy
    have hxm := getBlock_eq_some hbx
    have hym := getBlock_eq_some hby
    have hxlt : x < fn.nextBlockId := hxm.2 ▸ (hb bx hxm.1).1
    have hylt : y < fn.nextBlockId := hym.2 ▸ (hb byb hym.1).1
    obtain ⟨hblocks, hnext⟩ := connectBlocks_blocks_eq hx hy
    constructor
    · intro b hbm
      rw [hblocks] at hbm
      rw [hnext]
      simp only [List.mem_map] at hbm
      obtain ⟨a, ha, rfl⟩ := hbm
      obtain ⟨h1, h2, h3⟩ := hb a ha
      refine ⟨h1, ?_, ?_⟩
      · intro z hz
        dsimp only at hz
        by_cases hax : (a.id == x) = true
        · rw [if_pos hax] at hz
          rcases mem_insertSet.mp hz with rfl | hz2
          · exact hylt
          · exact h2 z hz2
        · rw [if_neg hax] at hz
          exact h2 z hz
      · intro z hz
        dsimp only at hz
        by_cases hay : (a.id == y) = true
        · rw [if_pos hay] at hz
          rcases mem_insertSet.mp hz with rfl | hz2
          · exact hxlt
          · exact h3 z hz2
        · rw [if_neg hay] at hz
          exact h3 z hz
    · intro a' ham b' hbm
      rw [hblocks] at ham hbm
      simp only [List.mem_map] at ham hbm
      obtain ⟨a, ha, rfl⟩ := ham
      obtain ⟨b, hbmem, rfl⟩ := hbm
      have hsym := hs a ha b hbmem
      dsimp only
      by_cases hax : (a.id == x) = true <;> by_cases hby2 : (b.id == y) = true <;>
        simp only [hax, hby2, if_true, if_false]
      · -- a is the source, b is the target: both sides become true
        have haeq : a.id = x := by simpa using hax
        have hbeq : b.id = y := by simpa using hby2
        constructor
        · intro _
          exact mem_insertSet.mpr (Or.inl hbeq)
        · intro _
          exact mem_insertSet.mpr (Or.inl haeq)
      · -- a is the source, b is not the target
        have hbne : ¬ (b.id = y) := by simpa using hby2
        constructor
        · intro hz
          exact mem_insertSet.mpr (Or.inr (hsym.mp hz))
        · intro hz
          rcases mem_insertSet.mp hz with heq | hz2
          · exact absurd heq hbne
          · exact hsym.mpr hz2
      · -- b is the target, a is not the source
        have hane : ¬ (a.id = x) := by simpa using hax
        constructor
        · intro hz
          rcases mem_insertSet.mp hz with heq | hz2
          · exact absurd heq hane
          · exact hsym.mp hz2
        · intro hz
          exact mem_insertSet.mpr (Or.inr (hsym.mpr hz))
      · exact hsym

/-- getOrCreateBlockForAddress preserves the CFG invariant. -/
theorem wfCfg_getOrCreate {addr : Nat} {ctx : LiftCtx} (h : WFCfg ctx.fn) :
    WFCfg ((getOrCreateBlockForAddress addr ctx).2).fn := by
  unfold getOrCreateBlockForAddress
  cases lookupAddr ctx.addrMap addr with
  | some bid => exact h
  | none => exact wfCfg_createBasicBlock h

/-- liftArithmetic preserves the CFG invariant. -/
theorem wfCfg_liftArithmetic {i : PInstr} {ctx ctx' : LiftCtx}
    (h : liftArithmetic i ctx = some ctx') (hw : WFCfg ctx.fn) : WFCfg ctx'.fn := by
  unfold liftArithmetic at h
  dsimp only at h
  repeat' split at h
  all_goals first
    | (injection h with h; subst h; exact hw)
    | exact absurd h (by simp)

/-- liftComparison preserves the CFG invariant. -/
theorem wfCfg_liftComparison {i : PInstr} {ctx ctx' : LiftCtx}
    (h : liftComparison i ctx = some ctx') (hw : WFCfg ctx.fn) : WFCfg ctx'.fn := by
  unfold liftComparison at h
  dsimp only at h
  repeat' split at h
  all_goals first
    | (injection h with h; subst h; exact hw)
    | exact absurd h (by simp)

/-- liftLogical preserves the CFG invariant. -/
theorem wfCfg_liftLogical {i : PInstr} {ctx ctx' : LiftCtx}
    (h : liftLogical i ctx = some ctx') (hw : WFCfg ctx.fn) : WFCfg ctx'.fn := by
  unfold liftLogical at h
  dsimp only at h
  repeat' split at h
  all_goals first
    | (injection h with h; subst h; exact hw)
    | exact absurd h (by simp)

/-- liftStack preserves the CFG invariant. -/
theorem wfCfg_liftStack {i : PInstr} {ctx ctx' : LiftCtx}
    (h : liftStack i ctx = some ctx') (hw : WFCfg ctx.fn) : WFCfg ctx'.fn := by
  unfold liftStack at h
  dsimp only at h
  repeat' split at h
  all_goals first
    | (injection h with h; subst h; exact hw)
    | (injection h with h; subst h; exact wfCfg_addStmt hw)
    | exact absurd h (by simp)

/-- liftMemory preserves the CFG invariant. -/
theorem wfCfg_liftMemory {i : PInstr} {ctx ctx' : LiftCtx}
    (h : liftMemory i ctx = some ctx') (hw : WFCfg ctx.fn) : WFCfg ctx'.fn := by
  unfold liftMemory at h
  injection h with h
  subst h
  exact hw

/-- liftBranch preserves the CFG invariant. -/
theorem wfCfg_liftBranch {i : PInstr} {ctx ctx' : LiftCtx}
    (h : liftBranch i ctx = some ctx') (hw : WFCfg ctx.fn) : WFCfg ctx'.fn := by
  unfold liftBranch at h
  split at h
  · -- conditional branch
    split at h
    · exact absurd h (by simp)
    · injection h with h
      subst h
      dsimp only
      apply wfCfg_connectBlocks
      apply wfCfg_createBasicBlock
      apply wfCfg_connectBlocks
      apply wfCfg_addStmt
      exact wfCfg_getOrCreate hw
  · -- unconditional branch
    injection h with h
    subst h
    dsimp only
    apply wfCfg_createBasicBlock
    apply wfCfg_connectBlocks
    apply wfCfg_addStmt
    exact wfCfg_getOrCreate hw

/-- liftCall preserves the CFG invariant. -/
theorem wfCfg_liftCall {i : PInstr} {ctx ctx' : LiftCtx}
    (h : liftCall i ctx = some ctx') (hw : WFCfg ctx.fn) : WFCfg ctx'.fn := by
  unfold liftCall at h
  dsimp only at h
  repeat' split at h
  all_goals first
    | (injection h with h; subst h; exact hw)
    | (injection h with h; subst h; exact wfCfg_addStmt hw)
    | exact absurd h (by simp)

/-- liftReturn preserves the CFG invariant. -/
theorem wfCfg_liftReturn {i : PInstr} {ctx ctx' : LiftCtx}
    (h : liftReturn i ctx = some ctx') (hw : WFCfg ctx.fn) : WFCfg ctx'.fn := by
  unfold liftReturn at h
  repeat' split at h
  all_goals (injection h with h; subst h; exact wfCfg_addStmt hw)

/-- liftInstruction preserves the CFG invariant. -/
theorem wfCfg_liftInstruction {i : PInstr} {ctx ctx' : LiftCtx}
    (h : liftInstruction i ctx = some ctx') (hw : WFCfg ctx.fn) : WFCfg ctx'.fn := by
  unfold liftInstruction at h
  split at h
  · exact wfCfg_liftArithmetic h hw
  · exact wfCfg_liftComparison h hw
  · exact wfCfg_liftLogical h hw
  · exact wfCfg_liftStack h hw
  · exact wfCfg_liftStack h hw
  · exact wfCfg_liftMemory h hw
  · exact wfCfg_liftMemory h hw
  · split at h
    · exact wfCfg_liftBranch h hw
    · split at h
      · exact wfCfg_liftReturn h hw
      · injection h with h
        subst h
        exact hw
  · exact wfCfg_liftCall h hw
  · injection h with h
    subst h
    exact hw

/-- The second pass of the lifter preserves the CFG invariant. -/
theorem wfCfg_liftGo :
    ∀ (instructions : List PInstr) (ctx : LiftCtx) (fn' : IRFunc),
      liftGo instructions ctx = .ok fn' → WFCfg ctx.fn → WFCfg fn' := by
  intro instructions
  induction instructions with
  | nil =>
    intro ctx fn' h hw
    unfold liftGo at h
    injection h with h
    subst h
    exact hw
  | cons i rest ih =>
    intro ctx fn' h hw
    unfold liftGo at h
    dsimp only at h
    cases hla : lookupAddr ctx.addrMap i.address with
    | none =>
      rw [hla] at h
      dsimp only at h
      split at h
      · exact absurd h (by simp)
      · next ctx2 hsome =>
        have hw2 := wfCfg_liftInstruction hsome hw
        split at h
        · injection h with h
          subst h
          exact hw2
        · exact ih ctx2 fn' h hw2
    | some bid =>
      rw [hla] at h
      dsimp only at h
      by_cases hbid : bid ≠ ctx.currentBlock
      · rw [if_pos hbid] at h
        by_cases hne : blockNonEmpty ctx.fn ctx.currentBlock = true
        · rw [if_pos hne] at h
          split at h
          · exact absurd h (by simp)
          · next ctx2 hsome =>
            have hw2 := wfCfg_liftInstruction hsome (wfCfg_connectBlocks hw)
            split at h
            · injection h with h
              subst h
              exact hw2
            · exact ih ctx2 fn' h hw2
        · rw [if_neg hne] at h
          split at h
          · exact absurd h (by simp)
          · next ctx2 hsome =>
            have hw2 := wfCfg_liftInstruction hsome hw
            split at h
            · injection h with h
              subst h
              exact hw2
            · exact ih ctx2 fn' h hw2
      · rw [if_neg hbid] at h
        split at h
        · exact absurd h (by simp)
        · next ctx2 hsome =>
          have hw2 := wfCfg_liftInstruction hsome hw
          split at h
          · injection h with h
            subst h
            exact hw2
          · exact ih ctx2 fn' h hw2

/-- The branch-target pre-creation pass preserves the CFG invariant. -/
theorem wfCfg_pass1 :
    ∀ (instructions : List PInstr) (ctx : LiftCtx), WFCfg ctx.fn →
      WFCfg (instructions.foldl
        (fun ctx i =>
          if i.isBranch && i.branchOffset ≠ 0 then
            (getOrCreateBlockForAddress (branchTarget i) ctx).2
          else ctx)
        ctx).fn := by
  intro instructions
  induction instructions with
  | nil => intro ctx hw; exact hw
  | cons i rest ih =>
    intro ctx hw
    rw [List.foldl_cons]
    apply ih
    split
    · exact wfCfg_getOrCreate hw
    · exact hw

/-- The one-block function the lifter starts from satisfies the CFG
invariant. -/
theorem wfCfg_init (functionName : String) (startAddress : Nat) :
    WFCfg { name := functionName, returnType := .basic .VARIANT, address := startAddress,
            blocks := [⟨0, [], [], []⟩], nextBlockId := 1, entryBlockId := 0 } := by
  constructor
  · intro b hbm
    cases hbm with
    | head =>
      exact ⟨Nat.zero_lt_one, fun x hx => absurd hx (List.not_mem_nil x),
             fun x hx => absurd hx (List.not_mem_nil x)⟩
    | tail _ h => cases h
  · intro a ham b hbm
    cases ham with
    | head =>
      cases hbm with
      | head => exact Iff.rfl
      | tail _ h => cases h
    | tail _ h => cases h

/-- C4: for every IR function the P-Code lifter produces, the
predecessor and successor sets are mutually consistent: block A is in
the predecessor set of block B iff block B is in the successor set of
block A. -/
theorem lift_cfg_edges_symmetric :
    ∀ (instructions : List PInstr) (functionName : String) (startAddress : Nat)
      (fn : IRFunc),
      lift instructions functionName startAddress = .ok fn →
      ∀ a ∈ fn.blocks, ∀ b ∈ fn.blocks, (a.id ∈ b.preds ↔ b.id ∈ a.succs) := by
  intro instructions functionName startAddress fn h a ha b hb
  unfold lift at h
  split at h
  · exact absurd h (by simp)
  · dsimp only at h
    have hw0 := wfCfg_init functionName startAddress
    have hw1 := wfCfg_pass1 instructions
      ⟨⟨functionName, .basic .VARIANT, startAddress, [⟨0, [], [], []⟩], 1, 0⟩, 0, [], []⟩ hw0
    have hw2 := wfCfg_liftGo instructions _ fn h hw1
    exact hw2.2 a ha b hb

/-- Witness for C4: lifting a lone ExitProc yields `c4fn`, whose single
block has symmetric (empty) edge sets. -/
theorem lift_cfg_edges_symmetric_witness :
    c4blk.id ∈ c4blk.preds ↔ c4blk.id ∈ c4blk.succs :=
  lift_cfg_edges_symmetric [c4instr] "f" 4096 c4fn rfl c4blk
    (List.mem_singleton.mpr rfl) c4blk (List.mem_singleton.mpr rfl)

end VBDec
